import Mathlib

/-
  Verification development for `scripts/setup_authentik_homelab.py`.

  The script is a sequential reconciler: it obtains an API token via
  `kubectl exec`, then talks to the identity provider's REST API
  (search / create / patch) to ensure OAuth2 providers, applications and
  password-recovery flows exist for a fixed list of two applications.

  The embedding below models:
  * the HTTP wrapper `api` (source lines 62-79) over an abstract transport
    outcome, to settle its error-handling contract;
  * the remote identity-provider database as a flat list of objects
    (`Obj`), together with the script's request log (`Call`).  The server
    itself is not part of this repository; its behaviour is modelled from
    the spec: a search endpoint filters the store on the queried field,
    a create endpoint appends an object under a fresh primary key, a
    patch endpoint rewrites the addressed fields in place.  Creates and
    patches may be refused by an oracle `fc : Call → Bool` standing for
    per-request failure (a non-2xx response, which `api` surfaces as a
    mapping without the expected key).
  * the client logic: `provision_app`, `setup_recovery_flow` and the
    control flow of `main`, transcribed block by block from the source.

  Primary keys are modelled as natural numbers allocated from a counter.
  In the real deployment pks are UUIDs or positive integers, so the
  Python truthiness tests on returned pks (`if not flow_pk`) coincide
  with presence of the key; the model therefore uses `Option Nat`, with
  `none` exactly when the create call failed or the key was absent.
-/

namespace Homelab

/-! ## JSON values and the HTTP wrapper `api` (source lines 62-79) -/

/-- Minimal JSON value model (what `json.loads` can return). -/
inductive Json where
  | obj (fields : List (String × Json))
  | arr (elems : List Json)
  | str (s : String)
  | num (n : Int)
  | bool (b : Bool)
  | null

/-- Outcome of `urllib.request.urlopen` for one request: a 2xx response
with a body, an `HTTPError` (non-2xx status, carrying the error body), or
a transport-level `URLError` that is not an `HTTPError` (connection
refused, DNS failure, TLS failure ...). -/
inductive HttpResult where
  | success (content : String)
  | httpError (code : Nat) (body : String)
  | transportError (msg : String)

/-- The HTTP wrapper `api(base, method, path, data)` of source lines
62-79, modelled over the transport outcome `r` of the issued request and
a JSON parser `parse` standing for `json.loads` (`none` = would raise
`JSONDecodeError`).  `Except.error` means an exception escapes `api`:
the source catches only `urllib.error.HTTPError` (line 73), so a plain
`URLError` propagates, as does `json.loads` failing on a 2xx body
(line 72, outside the `except` clause). -/
def api (parse : String → Option Json) (base method path : String)
    (r : HttpResult) : Except String Json :=
  match base, method, path, r with
  | _, _, _, HttpResult.success content =>
      if content = "" then Except.ok (Json.obj [])
      else
        match parse content with
        | some j => Except.ok j
        | none => Except.error "json.decoder.JSONDecodeError"
  | _, _, _, HttpResult.httpError _ body =>
      match parse body with
      | some j => Except.ok j
      | none => Except.ok (Json.obj [])
  | _, _, _, HttpResult.transportError msg => Except.error msg

/-! ## The fixed application list `APPS` (source lines 33-54) -/

structure AppConfig where
  name : String
  slug : String
  client_id : String
  redirect_uri : String
  launch_url : String
  keyvault_token_key : String
  recovery_flow_slug : String
  email_template : String
  deriving DecidableEq, Repr

def appProd : AppConfig :=
  { name := "Bike Weather"
    slug := "bike-weather"
    client_id := "bike-weather"
    redirect_uri := "https://bike-weather.com/auth/callback"
    launch_url := "https://bike-weather.com"
    keyvault_token_key := "bike-weather-authentik-api-token"
    recovery_flow_slug := "bike-weather-recovery"
    email_template := "email/password_reset_production.html" }

def appPreview : AppConfig :=
  { name := "Bike Weather Preview"
    slug := "bike-weather-preview"
    client_id := "bike-weather-preview"
    redirect_uri := "https://preview.bike-weather.com/auth/callback"
    launch_url := "https://preview.bike-weather.com"
    keyvault_token_key := "bike-weather-preview-authentik-api-token"
    recovery_flow_slug := "bike-weather-preview-recovery"
    email_template := "email/password_reset_preview.html" }

def APPS : List AppConfig := [appProd, appPreview]

/-! ## The remote object store

Modelled from the spec: the remote identity-provider database holds
providers, applications, flows, stages (four kinds), prompt fields,
stage bindings, certificates and scope mappings.  One flat record type
carries the union of the fields the script reads or writes; fields not
meaningful for a kind keep their default value. -/

inductive Kind where
  | provider | application | flow | identStage | emailStage
  | promptField | promptStage | userWriteStage | binding
  | cert | scopeMapping
  deriving DecidableEq, Repr

structure Obj where
  pk : Nat
  kind : Kind
  name : String := ""
  slug : String := ""
  client_id : String := ""
  field_key : String := ""
  scope_name : String := ""
  designation : String := ""
  template : String := ""
  subject : String := ""
  activate_user_on_success : Bool := false
  fields : List Nat := []
  target : Nat := 0
  stage : Nat := 0
  order : Nat := 0
  provider : Nat := 0
  redirect_uri : String := ""
  launch_url : String := ""
  deriving DecidableEq, Repr

/-- Request payload summary: the request-body fields that the claims
inspect, one constructor per POST/PATCH body shape built by the script
(`Payload.empty` for GET requests, which carry no body). -/
inductive Payload where
  | empty
  | provider (name client_id redirect_uri : String)
  | application (name slug : String) (provider : Nat) (launch_url : String)
  | flow (name slug : String)
  | identStage (name : String)
  | emailStage (name template subject : String)
  | emailPatch (template subject : String)
  | promptField (name field_key : String) (order : Nat)
  | promptStage (name : String) (fields : List Nat)
  | userWriteStage (name : String)
  | binding (target stage order : Nat)
  deriving DecidableEq, Repr

/-- One logical HTTP request issued by the script: the method, the full
URL (`f"{base}{path}"`, source line 65) and the body summary. -/
structure Call where
  method : String
  url : String
  payload : Payload
  deriving DecidableEq, Repr

/-- Remote store plus the request log of the current process. -/
structure St where
  objs : List Obj
  nextPk : Nat
  calls : List Call
  deriving DecidableEq, Repr

/-- The database part of the state (request log erased). -/
def dbOf (st : St) : List Obj × Nat := (st.objs, st.nextPk)

/-- The failure oracle never refuses a request (every create succeeds). -/
def NoFail (fc : Call → Bool) : Prop := ∀ c, fc c = false

/-- Well-formed remote state: primary keys are pairwise distinct and
below the allocation counter (true of any database state). -/
def WF (st : St) : Prop :=
  st.objs.Pairwise (fun a b => a.pk ≠ b.pk) ∧ ∀ o ∈ st.objs, o.pk < st.nextPk

instance (st : St) : Decidable (WF st) := by
  unfold WF; infer_instance

/-! ## Server primitives (modelled from the spec) -/

/-- Log a GET request; a GET never changes the store. -/
def getJson (st : St) (url : String) : St :=
  { st with calls := st.calls ++ [⟨"GET", url, Payload.empty⟩] }

/-- Issue a create request `c`.  On success the server appends `mk pk`
under a fresh pk and the parsed response carries that pk; on refusal
(`fc c = true`, a non-2xx response) the store is unchanged and the
caller's `.get("pk")` yields nothing. -/
def doPost (fc : Call → Bool) (st : St) (c : Call) (mk : Nat → Obj) :
    St × Option Nat :=
  if fc c then ({ st with calls := st.calls ++ [c] }, none)
  else
    ({ objs := st.objs ++ [mk st.nextPk]
       nextPk := st.nextPk + 1
       calls := st.calls ++ [c] }, some st.nextPk)

/-- Issue a patch request `c` addressed at pk `k`: on success the server
rewrites the addressed object with `upd`.  The script never reads a
patch response (source lines 266-277). -/
def doPatch (fc : Call → Bool) (st : St) (c : Call) (k : Nat)
    (upd : Obj → Obj) : St :=
  if fc c then { st with calls := st.calls ++ [c] }
  else
    { st with
      objs := st.objs.map (fun o => if o.pk = k then upd o else o)
      calls := st.calls ++ [c] }

/-- The object field a search endpoint filters on. -/
inductive Fld where
  | name | slug | client_id
  deriving DecidableEq, Repr

def fld : Fld → Obj → String
  | Fld.name, o => o.name
  | Fld.slug, o => o.slug
  | Fld.client_id, o => o.client_id

/-- List-level search: keep the objects of kind `k` whose selected field
equals the query. -/
def selFilter (k : Kind) (sel : Fld) (q : String) (l : List Obj) : List Obj :=
  l.filter (fun o => o.kind = k && fld sel o = q)

/-- Search endpoint, modelled from the spec: filter the store on a kind
and one queried field (the spec's data model says every resource is
"looked up by name" / slug / client id; exact matching is the intended
semantics of the query). -/
def searchBy (st : St) (k : Kind) (sel : Fld) (q : String) : List Obj :=
  selFilter k sel q st.objs

/-- Stage bindings of one flow (`GET /api/v3/flows/bindings/?target={pk}`),
reduced to the stage pks — the script keys `bound_stages` by stage
(source line 212). -/
def boundSet (st : St) (flowPk : Nat) : List Nat :=
  (st.objs.filter (fun o => o.kind = Kind.binding && o.target = flowPk)).map
    (fun o => o.stage)

/-! ## Object constructors (the create request bodies) -/

def mkProvider (pk : Nat) (name client_id redirect_uri : String) : Obj :=
  { pk := pk, kind := Kind.provider, name := name, client_id := client_id
    redirect_uri := redirect_uri }

def mkApplication (pk : Nat) (name slug : String) (provider : Nat)
    (launch_url : String) : Obj :=
  { pk := pk, kind := Kind.application, name := name, slug := slug
    provider := provider, launch_url := launch_url }

def mkFlow (pk : Nat) (name slug designation : String) : Obj :=
  { pk := pk, kind := Kind.flow, name := name, slug := slug
    designation := designation }

def mkIdentStage (pk : Nat) (name : String) : Obj :=
  { pk := pk, kind := Kind.identStage, name := name }

/-- Subject string of the email stage (source lines 253 and 273). -/
def emailSubject : String := "Fahrrad Wetter — Password Reset"

def mkEmailStage (pk : Nat) (name template : String) : Obj :=
  { pk := pk, kind := Kind.emailStage, name := name, template := template
    subject := emailSubject, activate_user_on_success := true }

def mkPromptField (pk : Nat) (name field_key : String) (order : Nat) : Obj :=
  { pk := pk, kind := Kind.promptField, name := name, field_key := field_key
    order := order }

def mkPromptStage (pk : Nat) (name : String) (fields : List Nat) : Obj :=
  { pk := pk, kind := Kind.promptStage, name := name, fields := fields }

def mkUserWriteStage (pk : Nat) (name : String) : Obj :=
  { pk := pk, kind := Kind.userWriteStage, name := name }

def mkBinding (pk : Nat) (target stage order : Nat) : Obj :=
  { pk := pk, kind := Kind.binding, target := target, stage := stage
    order := order }

def mkCert (pk : Nat) (name : String) : Obj :=
  { pk := pk, kind := Kind.cert, name := name }

def mkScopeMapping (pk : Nat) (scope_name : String) : Obj :=
  { pk := pk, kind := Kind.scopeMapping, scope_name := scope_name }

/-! ## Generic search-then-create step

Every block of the script follows the same shape: GET a search URL, take
`results[0]["pk"]` when the result list is non-empty, otherwise POST a
create request and take the response pk. -/

def ensureObj (fc : Call → Bool) (st : St) (searchUrl : String) (k : Kind)
    (sel : Fld) (q : String) (c : Call) (mk : Nat → Obj) :
    St × Option Nat :=
  let st := getJson st searchUrl
  match searchBy st k sel q with
  | o :: _ => (st, some o.pk)
  | [] => doPost fc st c mk

/-! ## `setup_recovery_flow` (source lines 170-384) -/

/-- Step 3 of `setup_recovery_flow` (source lines 214-237). -/
def identStep (fc : Call → Bool) (base flow_slug : String) (st : St) :
    St × Option Nat :=
  let ident_name := flow_slug ++ "-identification"
  ensureObj fc st
    (base ++ "/api/v3/stages/identification/?search=" ++ ident_name)
    Kind.identStage Fld.name ident_name
    ⟨"POST", base ++ "/api/v3/stages/identification/",
      Payload.identStage ident_name⟩
    (fun n => mkIdentStage n ident_name)

/-- Step 4 of `setup_recovery_flow`, lookup/create part
(source lines 239-263). -/
def emailStep (fc : Call → Bool) (base flow_slug email_template : String)
    (st : St) : St × Option Nat :=
  let email_name := flow_slug ++ "-email"
  ensureObj fc st
    (base ++ "/api/v3/stages/email/?search=" ++ email_name)
    Kind.emailStage Fld.name email_name
    ⟨"POST", base ++ "/api/v3/stages/email/",
      Payload.emailStage email_name email_template emailSubject⟩
    (fun n => mkEmailStage n email_name email_template)

/-- The field rewrite performed by the unconditional email-stage PATCH
(source lines 270-276). -/
def emailUpd (email_template : String) (o : Obj) : Obj :=
  { o with template := email_template, subject := emailSubject
           activate_user_on_success := true }

/-- The unconditional email-stage PATCH (source lines 265-277): issued
whenever an email-stage pk is at hand, found or freshly created. -/
def emailPatch (fc : Call → Bool) (base email_template : String)
    (pk? : Option Nat) (st : St) : St :=
  match pk? with
  | none => st
  | some pk =>
      doPatch fc st
        ⟨"PATCH", base ++ "/api/v3/stages/email/" ++ toString pk ++ "/",
          Payload.emailPatch email_template emailSubject⟩
        pk (emailUpd email_template)

/-- The prompt-field scan of source lines 289-293: iterate over all
prompt fields, remembering the last one whose `field_key` is
`password` resp. `password_repeat` (assignment in a loop, last match
wins; the scan is global, not scoped to the flow). -/
def promptScan (l : List Obj) : Option Nat × Option Nat :=
  l.foldl
    (fun acc p =>
      if p.field_key = "password" then (some p.pk, acc.2)
      else if p.field_key = "password_repeat" then (acc.1, some p.pk)
      else acc)
    (none, none)

/-- The prompt-field scan applied to the response of
`GET /api/v3/stages/prompt/prompts/` (all prompt fields of the store). -/
def pwScanOf (st : St) : Option Nat × Option Nat :=
  promptScan (st.objs.filter (fun o => o.kind = Kind.promptField))

/-- The `password` prompt-field resolution (source lines 295-310): reuse
the scanned pk, else POST the field and take the response pk. -/
def pwFieldStep (fc : Call → Bool) (base flow_slug : String) (st : St)
    (scanned : Option Nat) : St × Option Nat :=
  match scanned with
  | some p => (st, some p)
  | none =>
      doPost fc st
        ⟨"POST", base ++ "/api/v3/stages/prompt/prompts/",
          Payload.promptField (flow_slug ++ "-password-field") "password" 0⟩
        (fun n => mkPromptField n (flow_slug ++ "-password-field") "password" 0)

/-- The `password_repeat` prompt-field resolution (source lines
312-327). -/
def pwRepeatStep (fc : Call → Bool) (base flow_slug : String) (st : St)
    (scanned : Option Nat) : St × Option Nat :=
  match scanned with
  | some p => (st, some p)
  | none =>
      doPost fc st
        ⟨"POST", base ++ "/api/v3/stages/prompt/prompts/",
          Payload.promptField (flow_slug ++ "-password-repeat-field")
            "password_repeat" 1⟩
        (fun n => mkPromptField n (flow_slug ++ "-password-repeat-field")
          "password_repeat" 1)

/-- The create branch of step 5 (source lines 286-340): fetch all prompt
fields, scan for the two field keys, create each missing field, then
create the prompt stage over the pks actually obtained
(`fields = [pk for pk in [pw_prompt_pk, pw_repeat_pk] if pk]`). -/
def passwordCreate (fc : Call → Bool) (base flow_slug : String) (st : St) :
    St × Option Nat :=
  let pw_name := flow_slug ++ "-password"
  let st := getJson st (base ++ "/api/v3/stages/prompt/prompts/")
  let scan := pwScanOf st
  let r1 := pwFieldStep fc base flow_slug st scan.1
  let r2 := pwRepeatStep fc base flow_slug r1.1 scan.2
  let fields := [r1.2, r2.2].filterMap id
  doPost fc r2.1
    ⟨"POST", base ++ "/api/v3/stages/prompt/stages/",
      Payload.promptStage pw_name fields⟩
    (fun n => mkPromptStage n pw_name fields)

/-- Step 5 of `setup_recovery_flow` (source lines 279-340): look up the
prompt stage by name; if absent, run the create branch. -/
def passwordStep (fc : Call → Bool) (base flow_slug : String) (st : St) :
    St × Option Nat :=
  let pw_name := flow_slug ++ "-password"
  let st := getJson st (base ++ "/api/v3/stages/prompt/stages/?search=" ++ pw_name)
  match searchBy st Kind.promptStage Fld.name pw_name with
  | o :: _ => (st, some o.pk)
  | [] => passwordCreate fc base flow_slug st

/-- Step 6 of `setup_recovery_flow` (source lines 342-359). -/
def userWriteStep (fc : Call → Bool) (base flow_slug : String) (st : St) :
    St × Option Nat :=
  let write_name := flow_slug ++ "-user-write"
  ensureObj fc st
    (base ++ "/api/v3/stages/user_write/?search=" ++ write_name)
    Kind.userWriteStage Fld.name write_name
    ⟨"POST", base ++ "/api/v3/stages/user_write/",
      Payload.userWriteStage write_name⟩
    (fun n => mkUserWriteStage n write_name)

/-- One iteration of the binding loop (source lines 368-382): skip a
missing stage pk (`if not stage_pk: continue`), skip a stage already in
the pre-fetched binding set (`if stage_pk in bound_stages: continue`),
otherwise POST a binding at the paired order. -/
def bindOne (fc : Call → Bool) (base : String) (flow_pk : Nat)
    (bound : List Nat) (x : Option Nat × Nat) (st : St) : St :=
  match x.1 with
  | none => st
  | some p =>
      if p ∈ bound then st
      else
        (doPost fc st
          ⟨"POST", base ++ "/api/v3/flows/bindings/",
            Payload.binding flow_pk p x.2⟩
          (fun n => mkBinding n flow_pk p x.2)).1

/-- Step 7 of `setup_recovery_flow` (source lines 361-382): bind each
(stage pk, order) pair in order. -/
def bindStages (fc : Call → Bool) (base : String) (flow_pk : Nat)
    (bound : List Nat) (stages : List (Option Nat × Nat)) (st : St) : St :=
  stages.foldl (fun st x => bindOne fc base flow_pk bound x st) st

/-- Steps 2-7 of `setup_recovery_flow`, once the flow pk is known: fetch
the existing bindings of the flow (source lines 208-212), ensure the
four stages, patch the email stage, then bind the stages at the fixed
orders 0, 10, 20, 30 (source lines 361-367). -/
def recoveryCore (fc : Call → Bool) (base : String) (cfg : AppConfig)
    (st : St) (flow_pk : Nat) : St :=
  let flow_slug := cfg.recovery_flow_slug
  let st := getJson st
    (base ++ "/api/v3/flows/bindings/?target=" ++ toString flow_pk ++ "&ordering=order")
  let bound := boundSet st flow_pk
  let rI := identStep fc base flow_slug st
  let rE := emailStep fc base flow_slug cfg.email_template rI.1
  let stP := emailPatch fc base cfg.email_template rE.2 rE.1
  let rP := passwordStep fc base flow_slug stP
  let rW := userWriteStep fc base flow_slug rP.1
  bindStages fc base flow_pk bound
    [(rI.2, 0), (rE.2, 10), (rP.2, 20), (rW.2, 30)] rW.1

/-- Step 1 of `setup_recovery_flow` (source lines 182-206): find the
recovery flow by slug (`?slug=` is an exact field filter) or create
it. -/
def recoveryFlowEnsure (fc : Call → Bool) (base : String) (cfg : AppConfig)
    (st : St) : St × Option Nat :=
  ensureObj fc st
    (base ++ "/api/v3/flows/instances/?slug=" ++ cfg.recovery_flow_slug)
    Kind.flow Fld.slug cfg.recovery_flow_slug
    ⟨"POST", base ++ "/api/v3/flows/instances/",
      Payload.flow (cfg.name ++ " Recovery") cfg.recovery_flow_slug⟩
    (fun n => mkFlow n (cfg.name ++ " Recovery") cfg.recovery_flow_slug "recovery")

/-- `setup_recovery_flow(base, app_config)` (source lines 170-384):
a failed flow creation aborts this flow's setup (source line 205),
everything else proceeds. -/
def setupRecoveryFlow (fc : Call → Bool) (base : String) (cfg : AppConfig)
    (st : St) : St :=
  match (recoveryFlowEnsure fc base cfg st).2 with
  | none => (recoveryFlowEnsure fc base cfg st).1
  | some flow_pk =>
      recoveryCore fc base cfg (recoveryFlowEnsure fc base cfg st).1 flow_pk

/-! ## `provision_app` (source lines 387-461) -/

/-- The provider block of `provision_app` (source lines 399-435): search
the provider by slug (the created provider carries `client_id = slug`
for both configured apps, so the search is modelled on the client id);
reuse its pk when found, else create. -/
def providerEnsure (fc : Call → Bool) (base : String) (cfg : AppConfig)
    (st : St) : St × Option Nat :=
  ensureObj fc st
    (base ++ "/api/v3/providers/oauth2/?search=" ++ cfg.slug)
    Kind.provider Fld.client_id cfg.slug
    ⟨"POST", base ++ "/api/v3/providers/oauth2/",
      Payload.provider cfg.name cfg.client_id cfg.redirect_uri⟩
    (fun n => mkProvider n cfg.name cfg.client_id cfg.redirect_uri)

/-- The application block of `provision_app` (source lines 437-459):
search the application by slug, create it when absent; a failed creation
yields `None`. -/
def applicationEnsure (fc : Call → Bool) (base : String) (cfg : AppConfig)
    (provider_pk : Nat) (st : St) : St × Option Nat :=
  let st := getJson st (base ++ "/api/v3/core/applications/?slug=" ++ cfg.slug)
  match searchBy st Kind.application Fld.slug cfg.slug with
  | _ :: _ => (st, some provider_pk)
  | [] =>
      let ra := doPost fc st
        ⟨"POST", base ++ "/api/v3/core/applications/",
          Payload.application cfg.name cfg.slug provider_pk cfg.launch_url⟩
        (fun n => mkApplication n cfg.name cfg.slug provider_pk cfg.launch_url)
      match ra.2 with
      | some _ => (ra.1, some provider_pk)
      | none => (ra.1, none)

/-- `provision_app` (source lines 387-461).  Returns the provider pk, or
`none` when a creation failed (the caller then skips the app with a
warning, source lines 533-534).  The shared prerequisites
(authorization/invalidation flow, certificate, scope mappings) go into
the provider create body and do not influence control flow. -/
def provisionApp (fc : Call → Bool) (base : String) (cfg : AppConfig)
    (auth_flow invalidation_flow cert_pk : Nat) (mappings : List Nat)
    (st : St) : St × Option Nat :=
  match auth_flow, invalidation_flow, cert_pk, mappings,
      (providerEnsure fc base cfg st).2 with
  | _, _, _, _, none => ((providerEnsure fc base cfg st).1, none)
  | _, _, _, _, some provider_pk =>
      applicationEnsure fc base cfg provider_pk (providerEnsure fc base cfg st).1

/-! ## `main` (source lines 464-575) -/

/-- Python whitespace (`str.strip` with no argument). -/
def isPyWs (c : Char) : Bool :=
  c = ' ' || c = '\t' || c = '\n' || c = '\r' || c = '\x0b' || c = '\x0c'

/-- `str.strip()`: drop leading and trailing whitespace. -/
def pyStrip (l : List Char) : List Char :=
  ((l.dropWhile isPyWs).reverse.dropWhile isPyWs).reverse

/-- `str.split("\n")`: split on every newline (never returns an empty
list; splitting the empty string gives `[""]`). -/
def splitNl : List Char → List (List Char)
  | [] => [[]]
  | c :: rest =>
      match splitNl rest with
      | [] => [[c]]
      | h :: t => if c = '\n' then [] :: h :: t else (c :: h) :: t

/-- `result.stdout.strip().split("\n")[-1]` (source line 135): the last
line of the stripped command output — the minted token. -/
def tokenOf (stdout : String) : String :=
  ⟨(splitNl (pyStrip stdout.data)).getLastD []⟩

/-- `result.stdout.strip()` of the pod lookup (source line 100). -/
def podNameOf (stdout : String) : String :=
  ⟨pyStrip stdout.data⟩

/-- The token integrity guard of source line 136:
`if not token or len(token) < 10`. -/
def tokenBad (stdout : String) : Bool :=
  tokenOf stdout = "" || (tokenOf stdout).length < 10

/-- Drop trailing `'/'` characters from a character list. -/
def rstripData (l : List Char) : List Char :=
  (l.reverse.dropWhile (fun c => c = '/')).reverse

/-- `args.base_url.rstrip("/")` (source line 479). -/
def rstripSlashes (s : String) : String :=
  ⟨rstripData s.data⟩

/-- Parsed command line: `--base-url` and `--skip-keyvault`
(source lines 464-478). -/
structure Args where
  base_url : String
  skip_keyvault : Bool
  deriving DecidableEq, Repr

/-- Outcome of one process run: the exit code, the final remote state
with the request log, and the keyvault keys whose `az` write failed
(reported as warnings only, source lines 164-167 and 560-565). -/
structure RunResult where
  exit : Nat
  st : St
  vault_failures : List String
  deriving Repr

def certName : String := "authentik Self-signed Certificate"

def authFlowSlug : String := "default-provider-authorization-implicit-consent"

def invFlowSlug : String := "default-provider-invalidation-flow"

/-- The flow scan of source lines 509-513: iterate over all flow
instances, assigning on every slug match (last match wins). -/
def findFlowPk (st : St) (slug : String) : Option Nat :=
  st.objs.foldl
    (fun acc o => if o.kind = Kind.flow && o.slug = slug then some o.pk else acc)
    none

/-- The scope-mapping resolution of source lines 522-524: build
`{scope_name: pk}` (later entries win) and keep the pks of
`openid`, `profile`, `email` that are present, in that order. -/
def scopeMapLookup (st : St) (n : String) : Option Nat :=
  st.objs.foldl
    (fun acc o =>
      if o.kind = Kind.scopeMapping && o.scope_name = n then some o.pk else acc)
    none

def mappingsOf (st : St) : List Nat :=
  ["openid", "profile", "email"].filterMap (scopeMapLookup st)

/-- Steps 5-8 of `main` (source lines 527-567): provision both apps,
set up both recovery flows, verify the discovery endpoints (plain GETs),
then write the token to the vault unless skipped.  No step in here can
terminate the process: creation failures are logged and skipped, vault
failures are warnings. -/
def runReconcile (fc : Call → Bool) (base : String) (skip_keyvault : Bool)
    (vaultOk : String → Bool) (st : St)
    (auth_flow invalidation_flow cert_pk : Nat) (mappings : List Nat) :
    RunResult :=
  let st := APPS.foldl
    (fun st cfg =>
      (provisionApp fc base cfg auth_flow invalidation_flow cert_pk mappings st).1)
    st
  let st := APPS.foldl (fun st cfg => setupRecoveryFlow fc base cfg st) st
  let st := APPS.foldl
    (fun st cfg =>
      getJson st (base ++ "/application/o/" ++ cfg.slug ++
        "/.well-known/openid-configuration"))
    st
  let failures :=
    if skip_keyvault then []
    else
      (APPS.filter (fun cfg => !vaultOk cfg.keyvault_token_key)).map
        (fun cfg => cfg.keyvault_token_key)
  ⟨0, st, failures⟩

/-- Steps 3-4 of `main` (source lines 506-524): resolve the two required
default flows (fatal when either is missing, source lines 514-516) and
the scope mappings, then reconcile. -/
def runAfterCert (fc : Call → Bool) (base : String) (skip_keyvault : Bool)
    (vaultOk : String → Bool) (st : St) (cert_pk : Nat) : RunResult :=
  let st := getJson st (base ++ "/api/v3/flows/instances/")
  match findFlowPk st authFlowSlug, findFlowPk st invFlowSlug with
  | some auth_flow, some invalidation_flow =>
      let st := getJson st (base ++ "/api/v3/propertymappings/provider/scope/")
      runReconcile fc base skip_keyvault vaultOk st auth_flow invalidation_flow
        cert_pk (mappingsOf st)
  | _, _ => ⟨1, st, []⟩

/-- Step 2 of `main` (source lines 493-503): the signing certificate is
a fatal prerequisite. -/
def runAfterToken (fc : Call → Bool) (base : String) (skip_keyvault : Bool)
    (vaultOk : String → Bool) (st : St) : RunResult :=
  let st := getJson st
    (base ++ "/api/v3/crypto/certificatekeypairs/?name=authentik+Self-signed+Certificate")
  match searchBy st Kind.cert Fld.name certName with
  | c :: _ => runAfterCert fc base skip_keyvault vaultOk st c.pk
  | [] => ⟨1, st, []⟩

/-- `main` (source lines 464-575).  `pod_stdout` and `exec_stdout` are
the captured outputs of the two `kubectl` invocations inside
`ensure_api_token` (source lines 85-141); `vaultOk` tells which
`az keyvault secret set` invocations exit 0.  Exit code 1 is produced
exactly by the four `sys.exit(1)` sites: missing pod (line 105), bad
token (line 140), missing certificate (line 501), missing flows
(line 516). -/
def runMain (fc : Call → Bool) (args : Args) (pod_stdout exec_stdout : String)
    (vaultOk : String → Bool) (st : St) : RunResult :=
  let base := rstripSlashes args.base_url
  if podNameOf pod_stdout = "" then ⟨1, st, []⟩
  else if tokenBad exec_stdout then ⟨1, st, []⟩
  else runAfterToken fc base args.skip_keyvault vaultOk st

/-! ## Concrete scenario inputs -/

/-- Failure oracle of a healthy server: no request is refused. -/
def fcNone : Call → Bool := fun _ => false

/-- Every vault write succeeds. -/
def vkTrue : String → Bool := fun _ => true

def args0 : Args := { base_url := "https://auth.bike-weather.com", skip_keyvault := false }

def pod0 : String := "bike-weather-auth-server-0\n"

def exec0 : String := "abcdefghijklmnop1234\n"

/-- Empty remote state with the prerequisites present: the self-signed
certificate, the two required default flows, and the three standard
scope mappings — and none of the target resources. -/
def st0 : St :=
  { objs :=
      [ mkCert 1 certName
      , mkFlow 2 "Authorize Application" authFlowSlug "authorization"
      , mkFlow 3 "Logged out of application" invFlowSlug "invalidation"
      , mkScopeMapping 4 "openid"
      , mkScopeMapping 5 "profile"
      , mkScopeMapping 6 "email" ]
    nextPk := 7
    calls := [] }

/-- The remote state after one full successful run from `st0`
(fully provisioned), with the request log cleared for the next run. -/
def st1 : St :=
  { (runMain fcNone args0 pod0 exec0 vkTrue st0).st with calls := [] }

/-! ## Call counting helpers -/

def postCount (calls : List Call) : Nat :=
  (calls.filter (fun c => c.method = "POST")).length

def patchCount (calls : List Call) : Nat :=
  (calls.filter (fun c => c.method = "PATCH")).length

/-- Number of POST requests whose body creates an object of the given
shape, addressed by a payload classifier. -/
def payloadCount (p : Payload → Bool) (calls : List Call) : Nat :=
  (calls.filter (fun c => p c.payload)).length

def isProviderPayload : Payload → Bool
  | Payload.provider _ _ _ => true
  | _ => false

def isApplicationPayload : Payload → Bool
  | Payload.application _ _ _ _ => true
  | _ => false

def isFlowPayload : Payload → Bool
  | Payload.flow _ _ => true
  | _ => false

def isStagePayload : Payload → Bool
  | Payload.identStage _ => true
  | Payload.emailStage _ _ _ => true
  | Payload.promptStage _ _ => true
  | Payload.userWriteStage _ => true
  | _ => false

def isIdentStagePayload : Payload → Bool
  | Payload.identStage _ => true
  | _ => false

def isEmailStagePayload : Payload → Bool
  | Payload.emailStage _ _ _ => true
  | _ => false

def isPromptStagePayload : Payload → Bool
  | Payload.promptStage _ _ => true
  | _ => false

def isUserWriteStagePayload : Payload → Bool
  | Payload.userWriteStage _ => true
  | _ => false

def isBindingPayload : Payload → Bool
  | Payload.binding _ _ _ => true
  | _ => false

def isEmailPatchPayload : Payload → Bool
  | Payload.emailPatch _ _ => true
  | _ => false

/-- Objects of one kind in the store. -/
def kindCount (st : St) (k : Kind) : Nat :=
  (st.objs.filter (fun o => o.kind = k)).length

def isPromptFieldPayload : Payload → Bool
  | Payload.promptField _ _ _ => true
  | _ => false

/-- Failure oracle that refuses exactly the prompt-field create requests
(the server answers them with a non-2xx response). -/
def fcPromptFieldFail : Call → Bool := fun c => isPromptFieldPayload c.payload

/-- A string of `k` trailing slashes. -/
def slashes (k : Nat) : String := ⟨List.replicate k '/'⟩

/-- The four fatal prerequisite failures of `main`, one per `sys.exit(1)`
site: no server pod (source line 105), unusable token (line 140), missing
signing certificate (line 501), missing required default flows
(line 516). -/
def fatalPrereq (pod_stdout exec_stdout : String) (st : St) : Prop :=
  podNameOf pod_stdout = "" ∨ tokenBad exec_stdout = true ∨
  searchBy st Kind.cert Fld.name certName = [] ∨
  findFlowPk st authFlowSlug = none ∨ findFlowPk st invFlowSlug = none

/-! ## Predicates for the idempotence argument -/

/-- `g` preserves every field a search or a binding lookup inspects
(a patch rewrites only the email template, subject and activation
flag). -/
def Preserves (g : Obj → Obj) : Prop :=
  ∀ o, (g o).pk = o.pk ∧ (g o).kind = o.kind ∧ (g o).name = o.name ∧
    (g o).slug = o.slug ∧ (g o).client_id = o.client_id ∧
    (g o).target = o.target ∧ (g o).stage = o.stage

/-- A pk the run is allowed to patch: the pk of an email stage already in
the store whose name is among `ns`, or a pk not yet allocated. -/
def PatchOk (st : St) (ns : List String) (k : Nat) : Prop :=
  (∃ o ∈ st.objs, o.pk = k ∧ o.kind = Kind.emailStage ∧ o.name ∈ ns) ∨
  st.nextPk ≤ k

/-- One or more reconciliation steps lead from store `st` to store `st'`:
existing objects are at most patched (only email stages named in `ns`,
and only in their patchable fields), new objects are appended under
fresh, increasing pks, and the allocation counter never decreases. -/
def StepTo (ns : List String) (st st' : St) : Prop :=
  ∃ g ext,
    st'.objs = st.objs.map g ++ ext ∧
    Preserves g ∧
    (∀ o, g o = o ∨ PatchOk st ns o.pk) ∧
    (∀ o ∈ ext, st.nextPk ≤ o.pk ∧ o.pk < st'.nextPk) ∧
    ext.Pairwise (fun a b => a.pk < b.pk) ∧
    st.nextPk ≤ st'.nextPk

/-- The provider and the application of `cfg` exist
(what `provision_app` ensures). -/
def PA (cfg : AppConfig) (st : St) : Prop :=
  searchBy st Kind.provider Fld.client_id cfg.slug ≠ [] ∧
  searchBy st Kind.application Fld.slug cfg.slug ≠ []

/-- The recovery flow of `cfg` is fully provisioned: the flow and its
four stages resolve by search, the email stage carries the patched
fields, and all four stages are bound to the flow
(what `setup_recovery_flow` ensures). -/
def RF (cfg : AppConfig) (st : St) : Prop :=
  ∃ f i e p w : Obj,
    (searchBy st Kind.flow Fld.slug cfg.recovery_flow_slug).head? = some f ∧
    (searchBy st Kind.identStage Fld.name
      (cfg.recovery_flow_slug ++ "-identification")).head? = some i ∧
    (searchBy st Kind.emailStage Fld.name
      (cfg.recovery_flow_slug ++ "-email")).head? = some e ∧
    (searchBy st Kind.promptStage Fld.name
      (cfg.recovery_flow_slug ++ "-password")).head? = some p ∧
    (searchBy st Kind.userWriteStage Fld.name
      (cfg.recovery_flow_slug ++ "-user-write")).head? = some w ∧
    e.template = cfg.email_template ∧ e.subject = emailSubject ∧
    e.activate_user_on_success = true ∧
    i.pk ∈ boundSet st f.pk ∧ e.pk ∈ boundSet st f.pk ∧
    p.pk ∈ boundSet st f.pk ∧ w.pk ∈ boundSet st f.pk

/-! ## Basic lemmas -/

@[simp] lemma getJson_objs (st : St) (u : String) : (getJson st u).objs = st.objs := rfl

@[simp] lemma getJson_nextPk (st : St) (u : String) :
    (getJson st u).nextPk = st.nextPk := rfl

@[simp] lemma getJson_calls (st : St) (u : String) :
    (getJson st u).calls = st.calls ++ [⟨"GET", u, Payload.empty⟩] := rfl

@[simp] lemma searchBy_getJson (st : St) (u : String) (k : Kind) (sel : Fld)
    (q : String) : searchBy (getJson st u) k sel q = searchBy st k sel q := rfl

@[simp] lemma findFlowPk_getJson (st : St) (u s : String) :
    findFlowPk (getJson st u) s = findFlowPk st s := rfl

@[simp] lemma boundSet_getJson (st : St) (u : String) (fp : Nat) :
    boundSet (getJson st u) fp = boundSet st fp := rfl

@[simp] lemma payloadCount_append (p : Payload → Bool) (l l' : List Call) :
    payloadCount p (l ++ l') = payloadCount p l + payloadCount p l' := by
  simp [payloadCount, List.filter_append]

@[simp] lemma postCount_append (l l' : List Call) :
    postCount (l ++ l') = postCount l + postCount l' := by
  simp [postCount, List.filter_append]

@[simp] lemma patchCount_append (l l' : List Call) :
    patchCount (l ++ l') = patchCount l + patchCount l' := by
  simp [patchCount, List.filter_append]

lemma dropWhile_dropWhile (p : Char → Bool) (l : List Char) :
    List.dropWhile p (List.dropWhile p l) = List.dropWhile p l := by
  induction l with
  | nil => rfl
  | cons a l ih =>
      by_cases h : p a
      · simp [List.dropWhile_cons, h, ih]
      · simp [List.dropWhile_cons, h]

lemma rstripData_idem (l : List Char) : rstripData (rstripData l) = rstripData l := by
  unfold rstripData
  rw [List.reverse_reverse, dropWhile_dropWhile]

lemma rstripSlashes_idem (s : String) :
    rstripSlashes (rstripSlashes s) = rstripSlashes s := by
  unfold rstripSlashes
  exact congrArg String.mk (rstripData_idem s.data)

lemma dropWhile_replicate_slash (k : Nat) (l : List Char) :
    List.dropWhile (fun c => c = '/') (List.replicate k '/' ++ l) =
      List.dropWhile (fun c => c = '/') l := by
  induction k with
  | zero => rfl
  | succ k ih => simp [List.replicate_succ, List.dropWhile_cons, ih]

lemma rstripData_append_replicate (l : List Char) (k : Nat) :
    rstripData (l ++ List.replicate k '/') = rstripData l := by
  unfold rstripData
  rw [List.reverse_append, List.reverse_replicate, dropWhile_replicate_slash]

lemma rstripSlashes_append_slashes (w : String) (k : Nat) :
    rstripSlashes (w ++ slashes k) = rstripSlashes w := by
  unfold rstripSlashes slashes
  rw [String.data_append]
  exact congrArg String.mk (rstripData_append_replicate w.data k)

/-! ## Search and filter lemmas -/

lemma mem_of_head? {α : Type} {l : List α} {a : α} (h : l.head? = some a) :
    a ∈ l := by
  cases l with
  | nil => simp at h
  | cons b t =>
      rw [List.head?_cons] at h
      injection h with h
      rw [← h]
      exact List.mem_cons_self _ _

lemma mem_of_mem_selFilter {k : Kind} {sel : Fld} {q : String} {l : List Obj}
    {o : Obj} (h : o ∈ selFilter k sel q l) :
    o ∈ l ∧ o.kind = k ∧ fld sel o = q := by
  unfold selFilter at h
  rw [List.mem_filter] at h
  have h2 := h.2
  simp only [Bool.and_eq_true, decide_eq_true_eq] at h2
  exact ⟨h.1, h2.1, h2.2⟩

lemma selFilter_append (k : Kind) (sel : Fld) (q : String) (l l' : List Obj) :
    selFilter k sel q (l ++ l') = selFilter k sel q l ++ selFilter k sel q l' := by
  unfold selFilter
  exact List.filter_append l l'

lemma fld_preserves {g : Obj → Obj} (hg : Preserves g) (sel : Fld) (o : Obj) :
    fld sel (g o) = fld sel o := by
  cases sel with
  | name => exact (hg o).2.2.1
  | slug => exact (hg o).2.2.2.1
  | client_id => exact (hg o).2.2.2.2.1

lemma selFilter_map {g : Obj → Obj} (hg : Preserves g) (k : Kind) (sel : Fld)
    (q : String) (l : List Obj) :
    selFilter k sel q (l.map g) = (selFilter k sel q l).map g := by
  unfold selFilter
  rw [List.filter_map]
  congr 1
  apply List.filter_congr
  intro x _
  simp [Function.comp, (hg x).2.1, fld_preserves hg]

lemma wf_pk_inj {st : St} (hwf : WF st) {o e : Obj} (ho : o ∈ st.objs)
    (he : e ∈ st.objs) (hpk : o.pk = e.pk) : o = e := by
  by_contra hne
  exact (hwf.1.forall (fun a b h => Ne.symm h) ho he hne) hpk

/-! ## StepTo: the shape of every reconciliation step -/

lemma preserves_id : Preserves id := by
  intro o
  exact ⟨rfl, rfl, rfl, rfl, rfl, rfl, rfl⟩

lemma preserves_comp {g g' : Obj → Obj} (hg : Preserves g) (hg' : Preserves g') :
    Preserves (g' ∘ g) := by
  intro o
  obtain ⟨a1, a2, a3, a4, a5, a6, a7⟩ := hg' (g o)
  obtain ⟨b1, b2, b3, b4, b5, b6, b7⟩ := hg o
  exact ⟨a1.trans b1, a2.trans b2, a3.trans b3, a4.trans b4, a5.trans b5,
    a6.trans b6, a7.trans b7⟩

lemma preserves_patchAt (k : Nat) (tmpl : String) :
    Preserves (fun o => if o.pk = k then emailUpd tmpl o else o) := by
  intro o
  by_cases h : o.pk = k <;> simp [h, emailUpd]

lemma stepTo_refl (ns : List String) (st : St) : StepTo ns st st := by
  refine ⟨id, [], by simp, preserves_id, fun o => Or.inl rfl, by simp,
    List.Pairwise.nil, le_refl _⟩

lemma stepTo_mono_ns {ns ns' : List String} {st st' : St} (hsub : ns ⊆ ns')
    (h : StepTo ns st st') : StepTo ns' st st' := by
  obtain ⟨g, ext, hobjs, hg, hpt, hext, hpw, hnp⟩ := h
  refine ⟨g, ext, hobjs, hg, ?_, hext, hpw, hnp⟩
  intro o
  rcases hpt o with h' | hok
  · exact Or.inl h'
  · rcases hok with ⟨o', ho', hpk, hkind, hname⟩ | hge
    · exact Or.inr (Or.inl ⟨o', ho', hpk, hkind, hsub hname⟩)
    · exact Or.inr (Or.inr hge)

lemma patchOk_transport {ns : List String} {st st' : St} {k : Nat}
    {g : Obj → Obj} {ext : List Obj}
    (hobjs : st'.objs = st.objs.map g ++ ext) (hg : Preserves g)
    (hext : ∀ o ∈ ext, st.nextPk ≤ o.pk ∧ o.pk < st'.nextPk)
    (hnp : st.nextPk ≤ st'.nextPk)
    (hok : PatchOk st' ns k) : PatchOk st ns k := by
  rcases hok with ⟨o', ho', hpk, hkind, hname⟩ | hge
  · rw [hobjs] at ho'
    rcases List.mem_append.1 ho' with hm | hm
    · obtain ⟨x, hx, rfl⟩ := List.mem_map.1 hm
      refine Or.inl ⟨x, hx, ?_, ?_, ?_⟩
      · rw [← (hg x).1]; exact hpk
      · rw [← (hg x).2.1]; exact hkind
      · rw [← (hg x).2.2.1]; exact hname
    · refine Or.inr ?_
      rw [← hpk]
      exact (hext o' hm).1
  · exact Or.inr (le_trans hnp hge)

lemma stepTo_trans {ns : List String} {st st' st'' : St}
    (h1 : StepTo ns st st') (h2 : StepTo ns st' st'') : StepTo ns st st'' := by
  obtain ⟨g, e, hobjs, hg, hpt, hext, hpw, hnp⟩ := h1
  obtain ⟨g', e', hobjs', hg', hpt', hext', hpw', hnp'⟩ := h2
  refine ⟨g' ∘ g, e.map g' ++ e', ?_, preserves_comp hg hg', ?_, ?_, ?_,
    le_trans hnp hnp'⟩
  · rw [hobjs', hobjs, List.map_append, List.map_map, List.append_assoc]
  · intro o
    rcases hpt o with hid | hok
    · rcases hpt' (g o) with hid' | hok'
      · left
        show g' (g o) = o
        rw [hid] at hid' ⊢
        exact hid'
      · right
        rw [(hg o).1] at hok'
        exact patchOk_transport hobjs hg hext hnp hok'
    · exact Or.inr hok
  · intro o ho
    rcases List.mem_append.1 ho with hm | hm
    · obtain ⟨x, hx, rfl⟩ := List.mem_map.1 hm
      rw [(hg' x).1]
      exact ⟨(hext x hx).1, lt_of_lt_of_le (hext x hx).2 hnp'⟩
    · exact ⟨le_trans hnp (hext' o hm).1, (hext' o hm).2⟩
  · rw [List.pairwise_append]
    refine ⟨?_, hpw', ?_⟩
    · refine List.Pairwise.map _ ?_ hpw
      intro a b hab
      rw [(hg' a).1, (hg' b).1]
      exact hab
    · intro a ha b hb
      obtain ⟨x, hx, rfl⟩ := List.mem_map.1 ha
      have h1 : (g' x).pk < st'.nextPk := by
        rw [(hg' x).1]; exact (hext x hx).2
      exact lt_of_lt_of_le h1 (hext' b hb).1

lemma stepTo_wf {ns : List String} {st st' : St} (hwf : WF st)
    (h : StepTo ns st st') : WF st' := by
  obtain ⟨g, e, hobjs, hg, hpt, hext, hpw, hnp⟩ := h
  obtain ⟨hinj, hlt⟩ := hwf
  constructor
  · rw [hobjs, List.pairwise_append]
    refine ⟨?_, hpw.imp (fun hab => Nat.ne_of_lt hab), ?_⟩
    · refine List.Pairwise.map _ ?_ hinj
      intro a b hab
      rw [(hg a).1, (hg b).1]
      exact hab
    · intro a ha b hb
      obtain ⟨x, hx, rfl⟩ := List.mem_map.1 ha
      have h1 : (g x).pk < st.nextPk := by rw [(hg x).1]; exact hlt x hx
      have h2 := (hext b hb).1
      omega
  · intro o ho
    rw [hobjs] at ho
    rcases List.mem_append.1 ho with hm | hm
    · obtain ⟨x, hx, rfl⟩ := List.mem_map.1 hm
      rw [(hg x).1]
      exact lt_of_lt_of_le (hlt x hx) hnp
    · exact (hext o hm).2

/-! ## StepTo for the primitive server operations -/

lemma stepTo_getJson (ns : List String) (st : St) (u : String) :
    StepTo ns st (getJson st u) := by
  refine ⟨id, [], by simp, preserves_id, fun o => Or.inl rfl, by simp,
    List.Pairwise.nil, le_refl _⟩

lemma stepTo_doPost (ns : List String) (fc : Call → Bool) (st : St) (c : Call)
    (mk : Nat → Obj) (hmk : ∀ n, (mk n).pk = n) :
    StepTo ns st (doPost fc st c mk).1 := by
  unfold doPost
  by_cases h : fc c
  · rw [if_pos h]
    exact ⟨id, [], by simp, preserves_id, fun o => Or.inl rfl, by simp,
      List.Pairwise.nil, le_refl _⟩
  · rw [if_neg h]
    refine ⟨id, [mk st.nextPk], by simp, preserves_id, fun o => Or.inl rfl,
      ?_, List.pairwise_singleton _ _, Nat.le_succ _⟩
    intro o ho
    rw [List.mem_singleton] at ho
    subst ho
    rw [hmk]
    exact ⟨le_refl _, Nat.lt_succ_self _⟩

lemma stepTo_doPatch (ns : List String) (fc : Call → Bool) (st : St) (c : Call)
    (k : Nat) (tmpl : String) (hok : PatchOk st ns k) :
    StepTo ns st (doPatch fc st c k (emailUpd tmpl)) := by
  unfold doPatch
  by_cases h : fc c
  · rw [if_pos h]
    exact ⟨id, [], by simp, preserves_id, fun o => Or.inl rfl, by simp,
      List.Pairwise.nil, le_refl _⟩
  · rw [if_neg h]
    refine ⟨fun o => if o.pk = k then emailUpd tmpl o else o, [], by simp,
      preserves_patchAt k tmpl, ?_, by simp, List.Pairwise.nil, le_refl _⟩
    intro o
    by_cases hpk : o.pk = k
    · right
      rw [hpk]
      exact hok
    · left
      simp [hpk]

/-! ## Transport of established facts along StepTo -/

lemma stepTo_search_head {ns : List String} {st st' : St} (h : StepTo ns st st')
    {k : Kind} {sel : Fld} {q : String} {o : Obj}
    (hh : (searchBy st k sel q).head? = some o) :
    ∃ o', (searchBy st' k sel q).head? = some o' ∧ o'.pk = o.pk := by
  obtain ⟨g, e, hobjs, hg, _, _, _, _⟩ := h
  refine ⟨g o, ?_, (hg o).1⟩
  unfold searchBy at hh ⊢
  rw [hobjs, selFilter_append, selFilter_map hg, List.head?_append,
    List.head?_map, hh]
  rfl

lemma stepTo_search_ne {ns : List String} {st st' : St} (h : StepTo ns st st')
    {k : Kind} {sel : Fld} {q : String}
    (hne : searchBy st k sel q ≠ []) : searchBy st' k sel q ≠ [] := by
  cases hs : searchBy st k sel q with
  | nil => exact absurd hs hne
  | cons a t =>
      have hh : (searchBy st k sel q).head? = some a := by
        rw [hs, List.head?_cons]
      obtain ⟨o', ho', _⟩ := stepTo_search_head h hh
      intro hnil
      rw [hnil] at ho'
      simp at ho'

lemma stepTo_email_head {ns : List String} {st st' : St} (hwf : WF st)
    (h : StepTo ns st st') {q : String} (hq : q ∉ ns) {e : Obj}
    (hh : (searchBy st Kind.emailStage Fld.name q).head? = some e) :
    (searchBy st' Kind.emailStage Fld.name q).head? = some e := by
  obtain ⟨g, ext, hobjs, hg, hpt, hext, hpw, hnp⟩ := h
  have hmem : e ∈ st.objs ∧ e.kind = Kind.emailStage ∧ fld Fld.name e = q :=
    mem_of_mem_selFilter (mem_of_head? hh)
  have hge : g e = e := by
    rcases hpt e with h' | hok
    · exact h'
    · exfalso
      rcases hok with ⟨o', ho', hpk, hkind, hname⟩ | hge'
      · have heq : o' = e := wf_pk_inj hwf ho' hmem.1 hpk
        subst heq
        have hnq : fld Fld.name o' = q := hmem.2.2
        simp only [fld] at hnq
        rw [hnq] at hname
        exact hq hname
      · have := hwf.2 e hmem.1
        omega
  unfold searchBy at hh ⊢
  rw [hobjs, selFilter_append, selFilter_map hg, List.head?_append,
    List.head?_map, hh]
  simp [hge]

lemma stepTo_boundSet_sub {ns : List String} {st st' : St}
    (h : StepTo ns st st') (fp : Nat) : boundSet st fp ⊆ boundSet st' fp := by
  obtain ⟨g, ext, hobjs, hg, _, _, _, _⟩ := h
  unfold boundSet
  rw [hobjs, List.filter_append, List.filter_map, List.map_append]
  intro x hx
  apply List.mem_append_left
  rw [List.map_map]
  have hcongr :
      List.filter ((fun o => o.kind = Kind.binding && o.target = fp) ∘ g) st.objs
        = List.filter (fun o => o.kind = Kind.binding && o.target = fp) st.objs := by
    apply List.filter_congr
    intro a _
    simp [Function.comp, (hg a).2.1, (hg a).2.2.2.2.2.1]
  rw [hcongr]
  have hmapeq :
      List.map ((fun o => o.stage) ∘ g)
          (List.filter (fun o => o.kind = Kind.binding && o.target = fp) st.objs)
        = List.map (fun o => o.stage)
          (List.filter (fun o => o.kind = Kind.binding && o.target = fp) st.objs) := by
    apply List.map_congr_left
    intro a _
    exact (hg a).2.2.2.2.2.2
  rw [hmapeq]
  exact hx

lemma findFlow_foldl_some (slug : String) (l : List Obj) (p : Nat) :
    ∃ p', l.foldl
        (fun acc o => if o.kind = Kind.flow && o.slug = slug then some o.pk else acc)
        (some p) = some p' := by
  induction l generalizing p with
  | nil => exact ⟨p, rfl⟩
  | cons a t ih =>
      simp only [List.foldl_cons]
      by_cases h : (a.kind = Kind.flow && a.slug = slug) = true
      · rw [if_pos h]; exact ih a.pk
      · rw [if_neg h]; exact ih p

lemma stepTo_findFlow_some {ns : List String} {st st' : St}
    (h : StepTo ns st st') {slug : String} {p : Nat}
    (hs : findFlowPk st slug = some p) : ∃ p', findFlowPk st' slug = some p' := by
  obtain ⟨g, ext, hobjs, hg, _, _, _, _⟩ := h
  unfold findFlowPk at hs ⊢
  rw [hobjs, List.foldl_append]
  have hmap : List.foldl
      (fun acc o => if o.kind = Kind.flow && o.slug = slug then some o.pk else acc)
      none (st.objs.map g) = some p := by
    rw [List.foldl_map]
    rw [← hs]
    apply List.foldl_ext
    intro a b _
    simp [(hg b).1, (hg b).2.1, (hg b).2.2.2.1]
  rw [hmap]
  exact findFlow_foldl_some slug ext p

/-! ## Characterization of the primitive operations -/

lemma doPost_noFail {fc : Call → Bool} (hnf : NoFail fc) (st : St) (c : Call)
    (mk : Nat → Obj) :
    doPost fc st c mk =
      ({ objs := st.objs ++ [mk st.nextPk], nextPk := st.nextPk + 1
         calls := st.calls ++ [c] }, some st.nextPk) := by
  unfold doPost
  simp [hnf c]

lemma doPost_calls (fc : Call → Bool) (st : St) (c : Call) (mk : Nat → Obj) :
    (doPost fc st c mk).1.calls = st.calls ++ [c] := by
  unfold doPost
  by_cases h : fc c <;> simp [h]

lemma doPatch_calls (fc : Call → Bool) (st : St) (c : Call) (k : Nat)
    (upd : Obj → Obj) : (doPatch fc st c k upd).calls = st.calls ++ [c] := by
  unfold doPatch
  by_cases h : fc c <;> simp [h]

/-! ## Characterization of `ensureObj` (the search-then-create shape) -/

lemma ensureObj_found {st : St} {k : Kind} {sel : Fld} {q : String} {o : Obj}
    {t : List Obj} (fc : Call → Bool) (url : String) (c : Call) (mk : Nat → Obj)
    (hs : searchBy st k sel q = o :: t) :
    ensureObj fc st url k sel q c mk = (getJson st url, some o.pk) := by
  simp only [ensureObj, searchBy_getJson, hs]

lemma ensureObj_create {fc : Call → Bool} {st : St} {k : Kind} {sel : Fld}
    {q : String} (hnf : NoFail fc) (url : String) (c : Call) (mk : Nat → Obj)
    (hs : searchBy st k sel q = []) :
    ensureObj fc st url k sel q c mk =
      ({ objs := st.objs ++ [mk st.nextPk], nextPk := st.nextPk + 1
         calls := st.calls ++ [⟨"GET", url, Payload.empty⟩, c] },
       some st.nextPk) := by
  simp only [ensureObj, searchBy_getJson, hs]
  rw [doPost_noFail hnf]
  simp [getJson]

lemma ensureObj_calls (fc : Call → Bool) (st : St) (url : String) (k : Kind)
    (sel : Fld) (q : String) (c : Call) (mk : Nat → Obj) :
    (ensureObj fc st url k sel q c mk).1.calls =
      st.calls ++ (if searchBy st k sel q = []
        then [⟨"GET", url, Payload.empty⟩, c]
        else [⟨"GET", url, Payload.empty⟩]) := by
  cases hs : searchBy st k sel q with
  | nil =>
      simp only [ensureObj, searchBy_getJson, hs]
      rw [doPost_calls]
      simp
  | cons o t =>
      rw [ensureObj_found fc url c mk hs]
      simp [hs]

lemma ensureObj_stepTo (ns : List String) (fc : Call → Bool) (st : St)
    (url : String) (k : Kind) (sel : Fld) (q : String) (c : Call)
    (mk : Nat → Obj) (hmk : ∀ n, (mk n).pk = n) :
    StepTo ns st (ensureObj fc st url k sel q c mk).1 := by
  cases hs : searchBy st k sel q with
  | nil =>
      simp only [ensureObj, searchBy_getJson, hs]
      exact stepTo_trans (stepTo_getJson ns st url)
        (stepTo_doPost ns fc (getJson st url) c mk hmk)
  | cons o t =>
      rw [ensureObj_found fc url c mk hs]
      exact stepTo_getJson ns st url

lemma ensureObj_establish {fc : Call → Bool} {st : St} {k : Kind} {sel : Fld}
    {q : String} (hnf : NoFail fc) (url : String) (c : Call) (mk : Nat → Obj)
    (hmk : ∀ n, (mk n).pk = n ∧ (mk n).kind = k ∧ fld sel (mk n) = q) :
    ∃ p o', (ensureObj fc st url k sel q c mk).2 = some p ∧
      (searchBy (ensureObj fc st url k sel q c mk).1 k sel q).head? = some o' ∧
      o'.pk = p := by
  cases hs : searchBy st k sel q with
  | nil =>
      rw [ensureObj_create hnf url c mk hs]
      refine ⟨st.nextPk, mk st.nextPk, rfl, ?_, (hmk st.nextPk).1⟩
      unfold searchBy at hs ⊢
      simp only [selFilter_append k sel q st.objs [mk st.nextPk], hs,
        List.nil_append]
      unfold selFilter
      simp [List.filter, (hmk st.nextPk).2.1, (hmk st.nextPk).2.2]
  | cons o t =>
      rw [ensureObj_found fc url c mk hs]
      refine ⟨o.pk, o, rfl, ?_, rfl⟩
      simp [hs]

/-! ## Characterization of the email-stage PATCH -/

lemma emailPatch_calls_some (fc : Call → Bool) (base tmpl : String) (p : Nat)
    (st : St) :
    (emailPatch fc base tmpl (some p) st).calls =
      st.calls ++ [⟨"PATCH", base ++ "/api/v3/stages/email/" ++ toString p ++ "/",
        Payload.emailPatch tmpl emailSubject⟩] := by
  unfold emailPatch
  rw [doPatch_calls]

lemma emailPatch_stepTo (ns : List String) {st : St} (fc : Call → Bool)
    (base tmpl : String) {p : Nat} (hok : PatchOk st ns p) :
    StepTo ns st (emailPatch fc base tmpl (some p) st) := by
  unfold emailPatch
  exact stepTo_doPatch ns fc st _ p tmpl hok

lemma emailPatch_head {fc : Call → Bool} {st : St} {q : String} {e : Obj}
    {p : Nat} (hnf : NoFail fc) (base tmpl : String)
    (hh : (searchBy st Kind.emailStage Fld.name q).head? = some e)
    (hp : e.pk = p) :
    (searchBy (emailPatch fc base tmpl (some p) st)
      Kind.emailStage Fld.name q).head? = some (emailUpd tmpl e) := by
  unfold emailPatch doPatch
  simp only [hnf _, Bool.false_eq_true, if_false]
  unfold searchBy at hh ⊢
  simp only []
  rw [selFilter_map (preserves_patchAt p tmpl), List.head?_map, hh]
  simp [hp]

lemma emailUpd_self {tmpl : String} {o : Obj} (h1 : o.template = tmpl)
    (h2 : o.subject = emailSubject) (h3 : o.activate_user_on_success = true) :
    emailUpd tmpl o = o := by
  cases o
  simp only [emailUpd] at *
  simp_all

lemma emailPatch_db_self {fc : Call → Bool} {st : St} {e : Obj} {p : Nat}
    (hnf : NoFail fc) (base tmpl : String) (hwf : WF st) (he : e ∈ st.objs)
    (hp : e.pk = p) (hv1 : e.template = tmpl) (hv2 : e.subject = emailSubject)
    (hv3 : e.activate_user_on_success = true) :
    (emailPatch fc base tmpl (some p) st).objs = st.objs ∧
    (emailPatch fc base tmpl (some p) st).nextPk = st.nextPk := by
  unfold emailPatch doPatch
  simp only [hnf _, Bool.false_eq_true, if_false]
  refine ⟨?_, trivial⟩
  have : ∀ o ∈ st.objs,
      (if o.pk = p then emailUpd tmpl o else o) = o := by
    intro o ho
    by_cases hpk : o.pk = p
    · have heq : o = e := wf_pk_inj hwf ho he (by rw [hpk, hp])
      subst heq
      rw [if_pos hpk]
      exact emailUpd_self hv1 hv2 hv3
    · rw [if_neg hpk]
  calc st.objs.map (fun o => if o.pk = p then emailUpd tmpl o else o)
      = st.objs.map id := List.map_congr_left this
    _ = st.objs := List.map_id st.objs

/-! ## Projection lemmas for the object constructors -/

@[simp] lemma mkProvider_pk (n : Nat) (a b c : String) : (mkProvider n a b c).pk = n := rfl
@[simp] lemma mkProvider_kind (n : Nat) (a b c : String) : (mkProvider n a b c).kind = Kind.provider := rfl
@[simp] lemma mkProvider_client_id (n : Nat) (a b c : String) : (mkProvider n a b c).client_id = b := rfl
@[simp] lemma mkApplication_pk (n : Nat) (a b : String) (p : Nat) (u : String) : (mkApplication n a b p u).pk = n := rfl
@[simp] lemma mkApplication_kind (n : Nat) (a b : String) (p : Nat) (u : String) : (mkApplication n a b p u).kind = Kind.application := rfl
@[simp] lemma mkApplication_slug (n : Nat) (a b : String) (p : Nat) (u : String) : (mkApplication n a b p u).slug = b := rfl
@[simp] lemma mkFlow_pk (n : Nat) (a b c : String) : (mkFlow n a b c).pk = n := rfl
@[simp] lemma mkFlow_kind (n : Nat) (a b c : String) : (mkFlow n a b c).kind = Kind.flow := rfl
@[simp] lemma mkFlow_slug (n : Nat) (a b c : String) : (mkFlow n a b c).slug = b := rfl
@[simp] lemma mkIdentStage_pk (n : Nat) (a : String) : (mkIdentStage n a).pk = n := rfl
@[simp] lemma mkIdentStage_kind (n : Nat) (a : String) : (mkIdentStage n a).kind = Kind.identStage := rfl
@[simp] lemma mkIdentStage_name (n : Nat) (a : String) : (mkIdentStage n a).name = a := rfl
@[simp] lemma mkEmailStage_pk (n : Nat) (a b : String) : (mkEmailStage n a b).pk = n := rfl
@[simp] lemma mkEmailStage_kind (n : Nat) (a b : String) : (mkEmailStage n a b).kind = Kind.emailStage := rfl
@[simp] lemma mkEmailStage_name (n : Nat) (a b : String) : (mkEmailStage n a b).name = a := rfl
@[simp] lemma mkPromptField_pk (n : Nat) (a b : String) (o : Nat) : (mkPromptField n a b o).pk = n := rfl
@[simp] lemma mkPromptField_kind (n : Nat) (a b : String) (o : Nat) : (mkPromptField n a b o).kind = Kind.promptField := rfl
@[simp] lemma mkPromptStage_pk (n : Nat) (a : String) (fs : List Nat) : (mkPromptStage n a fs).pk = n := rfl
@[simp] lemma mkPromptStage_kind (n : Nat) (a : String) (fs : List Nat) : (mkPromptStage n a fs).kind = Kind.promptStage := rfl
@[simp] lemma mkPromptStage_name (n : Nat) (a : String) (fs : List Nat) : (mkPromptStage n a fs).name = a := rfl
@[simp] lemma mkUserWriteStage_pk (n : Nat) (a : String) : (mkUserWriteStage n a).pk = n := rfl
@[simp] lemma mkUserWriteStage_kind (n : Nat) (a : String) : (mkUserWriteStage n a).kind = Kind.userWriteStage := rfl
@[simp] lemma mkUserWriteStage_name (n : Nat) (a : String) : (mkUserWriteStage n a).name = a := rfl
@[simp] lemma mkBinding_pk (n t s o : Nat) : (mkBinding n t s o).pk = n := rfl
@[simp] lemma mkBinding_kind (n t s o : Nat) : (mkBinding n t s o).kind = Kind.binding := rfl
@[simp] lemma mkBinding_target (n t s o : Nat) : (mkBinding n t s o).target = t := rfl
@[simp] lemma mkBinding_stage (n t s o : Nat) : (mkBinding n t s o).stage = s := rfl

/-! ## Helpers on filters and states -/

lemma ne_nil_of_head? {α : Type} {l : List α} {a : α} (h : l.head? = some a) :
    l ≠ [] :=
  List.ne_nil_of_mem (mem_of_head? h)

lemma selFilter_singleton_ne {k : Kind} {o : Obj} (sel : Fld) (q : String)
    (h : o.kind ≠ k) : selFilter k sel q [o] = [] := by
  simp [selFilter, List.filter, h]

lemma searchBy_objs_eq {st st' : St} (h : st'.objs = st.objs) (k : Kind)
    (sel : Fld) (q : String) : searchBy st' k sel q = searchBy st k sel q := by
  unfold searchBy
  rw [h]

lemma boundSet_objs_eq {st st' : St} (h : st'.objs = st.objs) (fp : Nat) :
    boundSet st' fp = boundSet st fp := by
  unfold boundSet
  rw [h]

lemma findFlowPk_objs_eq {st st' : St} (h : st'.objs = st.objs) (s : String) :
    findFlowPk st' s = findFlowPk st s := by
  unfold findFlowPk
  rw [h]

lemma WF_db_eq {st st' : St} (ho : st'.objs = st.objs)
    (hn : st'.nextPk = st.nextPk) (hwf : WF st) : WF st' := by
  unfold WF at *
  rw [ho, hn]
  exact hwf

lemma PA_objs_eq {st st' : St} {cfg : AppConfig} (h : st'.objs = st.objs)
    (hPA : PA cfg st) : PA cfg st' := by
  unfold PA at *
  rw [searchBy_objs_eq h, searchBy_objs_eq h]
  exact hPA

lemma RF_objs_eq {st st' : St} {cfg : AppConfig} (h : st'.objs = st.objs)
    (hRF : RF cfg st) : RF cfg st' := by
  unfold RF
  simp only [searchBy_objs_eq h, boundSet_objs_eq h]
  exact hRF

lemma boundSet_objs_append {st st' : St} {ext : List Obj}
    (h : st'.objs = st.objs ++ ext) (fp : Nat) :
    boundSet st' fp = boundSet st fp ++
      ((ext.filter (fun o => o.kind = Kind.binding && o.target = fp)).map
        (fun o => o.stage)) := by
  unfold boundSet
  rw [h, List.filter_append, List.map_append]

lemma payloadCount_eq_zero {P : Payload → Bool} {l : List Call}
    (h : ∀ c ∈ l, P c.payload = false) : payloadCount P l = 0 := by
  unfold payloadCount
  rw [List.length_eq_zero, List.filter_eq_nil_iff]
  intro c hc
  simp [h c hc]

lemma patchCount_eq_zero {l : List Call}
    (h : ∀ c ∈ l, c.method ≠ "PATCH") : patchCount l = 0 := by
  unfold patchCount
  rw [List.length_eq_zero, List.filter_eq_nil_iff]
  intro c hc
  simp [h c hc]

/-! ## Characterization of the password-stage step -/

lemma selFilter_eq_nil_of_kinds {k : Kind} {sel : Fld} {q : String}
    {ext : List Obj} (h : ∀ o ∈ ext, o.kind ≠ k) :
    selFilter k sel q ext = [] := by
  unfold selFilter
  rw [List.filter_eq_nil_iff]
  intro o ho
  simp [h o ho]

@[simp] lemma pwScanOf_getJson (st : St) (u : String) :
    pwScanOf (getJson st u) = pwScanOf st := rfl

lemma pwFieldStep_facts (fc : Call → Bool) (base fs : String) (st : St)
    (sc : Option Nat) :
    ∃ ext mid,
      (pwFieldStep fc base fs st sc).1.objs = st.objs ++ ext ∧
      (pwFieldStep fc base fs st sc).1.calls = st.calls ++ mid ∧
      st.nextPk ≤ (pwFieldStep fc base fs st sc).1.nextPk ∧
      (∀ o ∈ ext, o.kind = Kind.promptField) ∧
      (∀ c ∈ mid, c.method = "POST" ∧ isPromptFieldPayload c.payload = true) := by
  cases sc with
  | some p =>
      refine ⟨[], [], ?_, ?_, le_refl _, by simp, by simp⟩ <;>
        simp [pwFieldStep]
  | none =>
      unfold pwFieldStep doPost
      by_cases h : fc ⟨"POST", base ++ "/api/v3/stages/prompt/prompts/",
          Payload.promptField (fs ++ "-password-field") "password" 0⟩
      · rw [if_pos h]
        refine ⟨[], [⟨"POST", base ++ "/api/v3/stages/prompt/prompts/",
          Payload.promptField (fs ++ "-password-field") "password" 0⟩],
          by simp, by simp, le_refl _, by simp, ?_⟩
        intro c hc
        rw [List.mem_singleton] at hc
        subst hc
        exact ⟨rfl, rfl⟩
      · rw [if_neg h]
        refine ⟨[mkPromptField st.nextPk (fs ++ "-password-field") "password" 0],
          [⟨"POST", base ++ "/api/v3/stages/prompt/prompts/",
            Payload.promptField (fs ++ "-password-field") "password" 0⟩],
          by simp, by simp, Nat.le_succ _, ?_, ?_⟩
        · intro o ho
          rw [List.mem_singleton] at ho
          subst ho
          rfl
        · intro c hc
          rw [List.mem_singleton] at hc
          subst hc
          exact ⟨rfl, rfl⟩

lemma pwRepeatStep_facts (fc : Call → Bool) (base fs : String) (st : St)
    (sc : Option Nat) :
    ∃ ext mid,
      (pwRepeatStep fc base fs st sc).1.objs = st.objs ++ ext ∧
      (pwRepeatStep fc base fs st sc).1.calls = st.calls ++ mid ∧
      st.nextPk ≤ (pwRepeatStep fc base fs st sc).1.nextPk ∧
      (∀ o ∈ ext, o.kind = Kind.promptField) ∧
      (∀ c ∈ mid, c.method = "POST" ∧ isPromptFieldPayload c.payload = true) := by
  cases sc with
  | some p =>
      refine ⟨[], [], ?_, ?_, le_refl _, by simp, by simp⟩ <;>
        simp [pwRepeatStep]
  | none =>
      unfold pwRepeatStep doPost
      by_cases h : fc ⟨"POST", base ++ "/api/v3/stages/prompt/prompts/",
          Payload.promptField (fs ++ "-password-repeat-field") "password_repeat" 1⟩
      · rw [if_pos h]
        refine ⟨[], [⟨"POST", base ++ "/api/v3/stages/prompt/prompts/",
          Payload.promptField (fs ++ "-password-repeat-field") "password_repeat" 1⟩],
          by simp, by simp, le_refl _, by simp, ?_⟩
        intro c hc
        rw [List.mem_singleton] at hc
        subst hc
        exact ⟨rfl, rfl⟩
      · rw [if_neg h]
        refine ⟨[mkPromptField st.nextPk (fs ++ "-password-repeat-field")
          "password_repeat" 1],
          [⟨"POST", base ++ "/api/v3/stages/prompt/prompts/",
            Payload.promptField (fs ++ "-password-repeat-field") "password_repeat" 1⟩],
          by simp, by simp, Nat.le_succ _, ?_, ?_⟩
        · intro o ho
          rw [List.mem_singleton] at ho
          subst ho
          rfl
        · intro c hc
          rw [List.mem_singleton] at hc
          subst hc
          exact ⟨rfl, rfl⟩

lemma pwFieldStep_stepTo (ns : List String) (fc : Call → Bool) (base fs : String)
    (st : St) (sc : Option Nat) :
    StepTo ns st (pwFieldStep fc base fs st sc).1 := by
  cases sc with
  | some p => exact stepTo_refl ns st
  | none => exact stepTo_doPost ns fc st _ _ (fun n => rfl)

lemma pwRepeatStep_stepTo (ns : List String) (fc : Call → Bool) (base fs : String)
    (st : St) (sc : Option Nat) :
    StepTo ns st (pwRepeatStep fc base fs st sc).1 := by
  cases sc with
  | some p => exact stepTo_refl ns st
  | none => exact stepTo_doPost ns fc st _ _ (fun n => rfl)

lemma passwordCreate_stepTo (ns : List String) (fc : Call → Bool)
    (base fs : String) (st : St) :
    StepTo ns st (passwordCreate fc base fs st).1 := by
  unfold passwordCreate
  exact stepTo_trans (stepTo_getJson ns st _)
    (stepTo_trans (pwFieldStep_stepTo ns fc base fs _ _)
      (stepTo_trans (pwRepeatStep_stepTo ns fc base fs _ _)
        (stepTo_doPost ns fc _ _ _ (fun n => rfl))))

lemma passwordCreate_calls (fc : Call → Bool) (base fs : String) (st : St) :
    ∃ mid p1 p2,
      (passwordCreate fc base fs st).1.calls = st.calls ++
        ([⟨"GET", base ++ "/api/v3/stages/prompt/prompts/", Payload.empty⟩] ++
          mid ++
          [⟨"POST", base ++ "/api/v3/stages/prompt/stages/",
            Payload.promptStage (fs ++ "-password")
              ([p1, p2].filterMap id)⟩]) ∧
      (∀ c ∈ mid, c.method = "POST" ∧ isPromptFieldPayload c.payload = true) := by
  obtain ⟨ext1, mid1, _, hc1, _, _, hm1⟩ :=
    pwFieldStep_facts fc base fs
      (getJson st (base ++ "/api/v3/stages/prompt/prompts/")) (pwScanOf st).1
  obtain ⟨ext2, mid2, _, hc2, _, _, hm2⟩ :=
    pwRepeatStep_facts fc base fs
      (pwFieldStep fc base fs
        (getJson st (base ++ "/api/v3/stages/prompt/prompts/")) (pwScanOf st).1).1
      (pwScanOf st).2
  refine ⟨mid1 ++ mid2,
    (pwFieldStep fc base fs
      (getJson st (base ++ "/api/v3/stages/prompt/prompts/")) (pwScanOf st).1).2,
    (pwRepeatStep fc base fs
      (pwFieldStep fc base fs
        (getJson st (base ++ "/api/v3/stages/prompt/prompts/")) (pwScanOf st).1).1
      (pwScanOf st).2).2,
    ?_, ?_⟩
  · show (doPost fc _ _ _).1.calls = _
    simp only [pwScanOf_getJson]
    rw [doPost_calls, hc2, hc1]
    simp [List.append_assoc]
  · intro c hc
    rcases List.mem_append.1 hc with h | h
    · exact hm1 c h
    · exact hm2 c h

lemma passwordCreate_establish {fc : Call → Bool} {st : St} {fs : String}
    (hnf : NoFail fc) (base : String)
    (hs : searchBy st Kind.promptStage Fld.name (fs ++ "-password") = []) :
    ∃ p o', (passwordCreate fc base fs st).2 = some p ∧
      (searchBy (passwordCreate fc base fs st).1 Kind.promptStage Fld.name
        (fs ++ "-password")).head? = some o' ∧ o'.pk = p := by
  obtain ⟨ext1, mid1, ho1, _, _, hk1, _⟩ :=
    pwFieldStep_facts fc base fs
      (getJson st (base ++ "/api/v3/stages/prompt/prompts/")) (pwScanOf st).1
  obtain ⟨ext2, mid2, ho2, _, _, hk2, _⟩ :=
    pwRepeatStep_facts fc base fs
      (pwFieldStep fc base fs
        (getJson st (base ++ "/api/v3/stages/prompt/prompts/")) (pwScanOf st).1).1
      (pwScanOf st).2
  have hred : passwordCreate fc base fs st =
      doPost fc
        (pwRepeatStep fc base fs
          (pwFieldStep fc base fs
            (getJson st (base ++ "/api/v3/stages/prompt/prompts/"))
            (pwScanOf st).1).1 (pwScanOf st).2).1
        ⟨"POST", base ++ "/api/v3/stages/prompt/stages/",
          Payload.promptStage (fs ++ "-password")
            ([(pwFieldStep fc base fs
                (getJson st (base ++ "/api/v3/stages/prompt/prompts/"))
                (pwScanOf st).1).2,
              (pwRepeatStep fc base fs
                (pwFieldStep fc base fs
                  (getJson st (base ++ "/api/v3/stages/prompt/prompts/"))
                  (pwScanOf st).1).1 (pwScanOf st).2).2].filterMap id)⟩
        (fun n => mkPromptStage n (fs ++ "-password")
          ([(pwFieldStep fc base fs
              (getJson st (base ++ "/api/v3/stages/prompt/prompts/"))
              (pwScanOf st).1).2,
            (pwRepeatStep fc base fs
              (pwFieldStep fc base fs
                (getJson st (base ++ "/api/v3/stages/prompt/prompts/"))
                (pwScanOf st).1).1 (pwScanOf st).2).2].filterMap id)) := rfl
  rw [hred, doPost_noFail hnf]
  refine ⟨_,
    mkPromptStage (pwRepeatStep fc base fs
        (pwFieldStep fc base fs
          (getJson st (base ++ "/api/v3/stages/prompt/prompts/"))
          (pwScanOf st).1).1 (pwScanOf st).2).1.nextPk (fs ++ "-password")
      (List.filterMap id [(pwFieldStep fc base fs
          (getJson st (base ++ "/api/v3/stages/prompt/prompts/"))
          (pwScanOf st).1).2,
        (pwRepeatStep fc base fs
        (pwFieldStep fc base fs
          (getJson st (base ++ "/api/v3/stages/prompt/prompts/"))
          (pwScanOf st).1).1 (pwScanOf st).2).2]),
    rfl, ?_, rfl⟩
  unfold searchBy at hs ⊢
  simp only []
  rw [ho2, ho1]
  simp only [getJson_objs, List.append_assoc]
  rw [selFilter_append, hs, List.nil_append, selFilter_append,
    selFilter_eq_nil_of_kinds (fun o ho => by rw [hk1 o ho]; intro h; cases h),
    List.nil_append, selFilter_append,
    selFilter_eq_nil_of_kinds (fun o ho => by rw [hk2 o ho]; intro h; cases h),
    List.nil_append]
  unfold selFilter
  simp [List.filter, fld]

lemma passwordStep_found {fc : Call → Bool} {st : St} {fs : String} {o : Obj}
    {t : List Obj} (base : String)
    (hs : searchBy st Kind.promptStage Fld.name (fs ++ "-password") = o :: t) :
    passwordStep fc base fs st =
      (getJson st (base ++ "/api/v3/stages/prompt/stages/?search=" ++
        (fs ++ "-password")), some o.pk) := by
  simp only [passwordStep, searchBy_getJson, hs]

lemma passwordStep_nil {fc : Call → Bool} {st : St} {fs : String} (base : String)
    (hs : searchBy st Kind.promptStage Fld.name (fs ++ "-password") = []) :
    passwordStep fc base fs st =
      passwordCreate fc base fs
        (getJson st (base ++ "/api/v3/stages/prompt/stages/?search=" ++
          (fs ++ "-password"))) := by
  simp only [passwordStep, searchBy_getJson, hs]

lemma passwordStep_stepTo (ns : List String) (fc : Call → Bool)
    (base fs : String) (st : St) :
    StepTo ns st (passwordStep fc base fs st).1 := by
  cases hs : searchBy st Kind.promptStage Fld.name (fs ++ "-password") with
  | cons o t =>
      rw [passwordStep_found base hs]
      exact stepTo_getJson ns st _
  | nil =>
      rw [passwordStep_nil base hs]
      exact stepTo_trans (stepTo_getJson ns st _)
        (passwordCreate_stepTo ns fc base fs _)

lemma passwordStep_establish {fc : Call → Bool} {st : St} {fs : String}
    (hnf : NoFail fc) (base : String) :
    ∃ p o', (passwordStep fc base fs st).2 = some p ∧
      (searchBy (passwordStep fc base fs st).1 Kind.promptStage Fld.name
        (fs ++ "-password")).head? = some o' ∧ o'.pk = p := by
  cases hs : searchBy st Kind.promptStage Fld.name (fs ++ "-password") with
  | cons o t =>
      rw [passwordStep_found base hs]
      refine ⟨o.pk, o, rfl, ?_, rfl⟩
      simp [hs]
  | nil =>
      rw [passwordStep_nil base hs]
      exact passwordCreate_establish hnf base (by simpa using hs)

/-! ## Characterization of the binding step -/

lemma bindStages_nil (fc : Call → Bool) (base : String) (fp : Nat)
    (bound : List Nat) (st : St) : bindStages fc base fp bound [] st = st := rfl

lemma bindStages_cons (fc : Call → Bool) (base : String) (fp : Nat)
    (bound : List Nat) (x : Option Nat × Nat) (t : List (Option Nat × Nat))
    (st : St) :
    bindStages fc base fp bound (x :: t) st =
      bindStages fc base fp bound t (bindOne fc base fp bound x st) := rfl

lemma bindOne_stepTo (ns : List String) (fc : Call → Bool) (base : String)
    (fp : Nat) (bound : List Nat) (x : Option Nat × Nat) (st : St) :
    StepTo ns st (bindOne fc base fp bound x st) := by
  cases hx : x.1 with
  | none =>
      simp only [bindOne, hx]
      exact stepTo_refl ns st
  | some p =>
      simp only [bindOne, hx]
      by_cases h : p ∈ bound
      · rw [if_pos h]
        exact stepTo_refl ns st
      · rw [if_neg h]
        exact stepTo_doPost ns fc st _ _ (fun n => rfl)

lemma bindStages_stepTo (ns : List String) (fc : Call → Bool) (base : String)
    (fp : Nat) (bound : List Nat) (stages : List (Option Nat × Nat)) (st : St) :
    StepTo ns st (bindStages fc base fp bound stages st) := by
  induction stages generalizing st with
  | nil => exact stepTo_refl ns st
  | cons x t ih =>
      rw [bindStages_cons]
      exact stepTo_trans (bindOne_stepTo ns fc base fp bound x st) (ih _)

lemma bindStages_calls (fc : Call → Bool) (base : String) (fp : Nat)
    (bound : List Nat) (stages : List (Option Nat × Nat)) (st : St) :
    (bindStages fc base fp bound stages st).calls = st.calls ++
      stages.filterMap (fun x =>
        match x.1 with
        | none => none
        | some p =>
            if p ∈ bound then none
            else some ⟨"POST", base ++ "/api/v3/flows/bindings/",
              Payload.binding fp p x.2⟩) := by
  induction stages generalizing st with
  | nil => simp [bindStages_nil]
  | cons x t ih =>
      rw [bindStages_cons, ih]
      cases hx : x.1 with
      | none => simp [bindOne, hx]
      | some p =>
          by_cases h : p ∈ bound
          · simp [bindOne, hx, h]
          · simp only [bindOne, hx]
            rw [if_neg h, doPost_calls]
            simp [hx, h]

lemma bindOne_boundSet {fc : Call → Bool} {st : St} {fp : Nat}
    {bound : List Nat} {x : Option Nat × Nat} {p : Nat}
    (hnf : NoFail fc) (base : String) (hsub : bound ⊆ boundSet st fp)
    (hp : x.1 = some p) :
    p ∈ boundSet (bindOne fc base fp bound x st) fp := by
  simp only [bindOne, hp]
  by_cases h : p ∈ bound
  · rw [if_pos h]
    exact hsub h
  · rw [if_neg h, doPost_noFail hnf]
    simp only [boundSet]
    simp [List.filter]

lemma bindStages_mem {fc : Call → Bool} {st : St} {fp : Nat} {bound : List Nat}
    {stages : List (Option Nat × Nat)} (hnf : NoFail fc) (base : String)
    (hsub : bound ⊆ boundSet st fp) :
    ∀ x ∈ stages, ∀ p, x.1 = some p →
      p ∈ boundSet (bindStages fc base fp bound stages st) fp := by
  induction stages generalizing st with
  | nil => intro x hx; simp at hx
  | cons y t ih =>
      intro x hx p hp
      rw [bindStages_cons]
      have hmono : boundSet st fp ⊆ boundSet (bindOne fc base fp bound y st) fp :=
        stepTo_boundSet_sub (bindOne_stepTo [] fc base fp bound y st) fp
      rcases List.mem_cons.1 hx with rfl | hxt
      · have hin : p ∈ boundSet (bindOne fc base fp bound x st) fp :=
          bindOne_boundSet hnf base hsub hp
        exact stepTo_boundSet_sub
          (bindStages_stepTo [] fc base fp bound t _) fp hin
      · exact ih (fun a ha => hmono (hsub ha)) x hxt p hp

lemma bindStages_db_all_bound {fc : Call → Bool} {st : St} {fp : Nat}
    {bound : List Nat} {stages : List (Option Nat × Nat)}
    (hall : ∀ x ∈ stages, ∀ p, x.1 = some p → p ∈ bound) (base : String) :
    bindStages fc base fp bound stages st = st := by
  induction stages with
  | nil => rfl
  | cons x t ih =>
      rw [bindStages_cons]
      have hone : bindOne fc base fp bound x st = st := by
        cases hx : x.1 with
        | none => simp [bindOne, hx]
        | some p =>
            simp only [bindOne, hx]
            rw [if_pos (hall x (List.mem_cons_self _ _) p hx)]
      rw [hone]
      exact ih (fun x hx => hall x (List.mem_cons_of_mem _ hx))

/-! ## The email-stage patch target -/

/-- Whenever `emailStep` yields a pk, that pk belongs to an email stage
with the derived name in the resulting store (found or freshly
created) — the object the unconditional PATCH addresses. -/
lemma emailStep_target {fc : Call → Bool} {st : St} {base fs tmpl : String}
    {p : Nat} (h : (emailStep fc base fs tmpl st).2 = some p) :
    ∃ o ∈ (emailStep fc base fs tmpl st).1.objs,
      o.pk = p ∧ o.kind = Kind.emailStage ∧ o.name = fs ++ "-email" := by
  unfold emailStep at *
  cases hs : searchBy st Kind.emailStage Fld.name (fs ++ "-email") with
  | cons o t =>
      rw [ensureObj_found fc _ _ _ hs] at h ⊢
      injection h with h
      have hmem : o ∈ st.objs ∧ o.kind = Kind.emailStage ∧ fld Fld.name o = fs ++ "-email" := by
        apply mem_of_mem_selFilter
        show o ∈ searchBy st Kind.emailStage Fld.name (fs ++ "-email")
        rw [hs]
        exact List.mem_cons_self _ _
      refine ⟨o, hmem.1, h, hmem.2.1, ?_⟩
      have := hmem.2.2
      simp only [fld] at this
      exact this
  | nil =>
      simp only [ensureObj, searchBy_getJson, hs] at h ⊢
      unfold doPost at h ⊢
      by_cases hf : fc ⟨"POST", base ++ "/api/v3/stages/email/",
          Payload.emailStage (fs ++ "-email") tmpl emailSubject⟩
      · rw [if_pos hf] at h
        simp at h
      · rw [if_neg hf] at h ⊢
        injection h with h
        refine ⟨mkEmailStage st.nextPk (fs ++ "-email") tmpl, ?_, ?_, rfl, rfl⟩
        · simp
        · exact h

/-! ## Characterization of `provision_app` -/

lemma applicationEnsure_stepTo (ns : List String) (fc : Call → Bool)
    (base : String) (cfg : AppConfig) (pk : Nat) (st : St) :
    StepTo ns st (applicationEnsure fc base cfg pk st).1 := by
  simp only [applicationEnsure]
  have hg := stepTo_getJson ns st (base ++ "/api/v3/core/applications/?slug=" ++ cfg.slug)
  cases hs : searchBy (getJson st (base ++ "/api/v3/core/applications/?slug=" ++ cfg.slug))
      Kind.application Fld.slug cfg.slug with
  | cons o t => exact hg
  | nil =>
      have hp := stepTo_trans hg (stepTo_doPost ns fc
        (getJson st (base ++ "/api/v3/core/applications/?slug=" ++ cfg.slug))
        ⟨"POST", base ++ "/api/v3/core/applications/",
          Payload.application cfg.name cfg.slug pk cfg.launch_url⟩
        (fun n => mkApplication n cfg.name cfg.slug pk cfg.launch_url)
        (fun n => rfl))
      cases hra : (doPost fc
          (getJson st (base ++ "/api/v3/core/applications/?slug=" ++ cfg.slug))
          ⟨"POST", base ++ "/api/v3/core/applications/",
            Payload.application cfg.name cfg.slug pk cfg.launch_url⟩
          (fun n => mkApplication n cfg.name cfg.slug pk cfg.launch_url)).2 with
      | none => exact hp
      | some q => exact hp

lemma provisionApp_stepTo (ns : List String) (fc : Call → Bool) (base : String)
    (cfg : AppConfig) (af ivf cp : Nat) (m : List Nat) (st : St) :
    StepTo ns st (provisionApp fc base cfg af ivf cp m st).1 := by
  unfold provisionApp
  have h1 : StepTo ns st (providerEnsure fc base cfg st).1 :=
    ensureObj_stepTo ns fc st _ _ _ _ _ _ (fun n => rfl)
  cases hr : (providerEnsure fc base cfg st).2 with
  | none => exact h1
  | some pk => exact stepTo_trans h1 (applicationEnsure_stepTo ns fc base cfg pk _)

lemma provisionApp_establish {fc : Call → Bool} {st : St} {cfg : AppConfig}
    (hnf : NoFail fc) (base : String) (hcs : cfg.client_id = cfg.slug)
    (af ivf cp : Nat) (m : List Nat) :
    PA cfg (provisionApp fc base cfg af ivf cp m st).1 ∧
    ∃ p, (provisionApp fc base cfg af ivf cp m st).2 = some p := by
  obtain ⟨p, o', hr2, hhead, hopk⟩ :=
    @ensureObj_establish fc st Kind.provider Fld.client_id cfg.slug hnf
      (base ++ "/api/v3/providers/oauth2/?search=" ++ cfg.slug)
      ⟨"POST", base ++ "/api/v3/providers/oauth2/",
        Payload.provider cfg.name cfg.client_id cfg.redirect_uri⟩
      (fun n => mkProvider n cfg.name cfg.client_id cfg.redirect_uri)
      (fun n => ⟨rfl, rfl, by simp [fld, hcs]⟩)
  have hr2' : (providerEnsure fc base cfg st).2 = some p := hr2
  have hne : searchBy (providerEnsure fc base cfg st).1 Kind.provider
      Fld.client_id cfg.slug ≠ [] := ne_nil_of_head? hhead
  simp only [provisionApp, hr2', applicationEnsure]
  cases happ : searchBy
      (getJson (providerEnsure fc base cfg st).1
        (base ++ "/api/v3/core/applications/?slug=" ++ cfg.slug))
      Kind.application Fld.slug cfg.slug with
  | cons a t =>
      refine ⟨⟨?_, ?_⟩, p, rfl⟩
      · show searchBy (providerEnsure fc base cfg st).1 Kind.provider
          Fld.client_id cfg.slug ≠ []
        exact hne
      · show searchBy (getJson (providerEnsure fc base cfg st).1 _)
          Kind.application Fld.slug cfg.slug ≠ []
        rw [happ]
        intro hx
        cases hx
  | nil =>
      rw [doPost_noFail hnf]
      refine ⟨⟨?_, ?_⟩, p, rfl⟩
      · unfold searchBy at hne ⊢
        simp only [getJson_objs]
        rw [selFilter_append]
        exact List.append_ne_nil_of_left_ne_nil hne _
      · unfold searchBy at happ ⊢
        simp only [getJson_objs] at happ ⊢
        rw [selFilter_append, happ, List.nil_append]
        unfold selFilter
        simp [List.filter, fld]

lemma provisionApp_fix {fc : Call → Bool} {st : St} {cfg : AppConfig}
    (base : String) (af ivf cp : Nat) (m : List Nat) (hPA : PA cfg st) :
    (provisionApp fc base cfg af ivf cp m st).1.objs = st.objs ∧
    (provisionApp fc base cfg af ivf cp m st).1.nextPk = st.nextPk := by
  obtain ⟨hprov, happ⟩ := hPA
  cases hs : searchBy st Kind.provider Fld.client_id cfg.slug with
  | nil => exact absurd hs hprov
  | cons o t =>
      have hre : providerEnsure fc base cfg st =
          (getJson st (base ++ "/api/v3/providers/oauth2/?search=" ++ cfg.slug),
            some o.pk) := by
        unfold providerEnsure
        exact ensureObj_found fc _ _ _ hs
      simp only [provisionApp, hre, applicationEnsure]
      cases happ2 : searchBy st Kind.application Fld.slug cfg.slug with
      | nil => exact absurd happ2 happ
      | cons a t2 =>
          simp only [searchBy_getJson, happ2]
          exact ⟨rfl, rfl⟩

lemma PA_stable {ns : List String} {st st' : St} {cfg : AppConfig}
    (h : StepTo ns st st') (hPA : PA cfg st) : PA cfg st' :=
  ⟨stepTo_search_ne h hPA.1, stepTo_search_ne h hPA.2⟩

lemma RF_stable {ns : List String} {st st' : St} {cfg : AppConfig}
    (hwf : WF st) (h : StepTo ns st st')
    (hq : cfg.recovery_flow_slug ++ "-email" ∉ ns) (hRF : RF cfg st) :
    RF cfg st' := by
  obtain ⟨f, i, e, p, w, hf, hi, he, hp, hw, hv1, hv2, hv3, hb1, hb2, hb3, hb4⟩ := hRF
  obtain ⟨f', hf', hfpk⟩ := stepTo_search_head h hf
  obtain ⟨i', hi', hipk⟩ := stepTo_search_head h hi
  have he' := stepTo_email_head hwf h hq he
  obtain ⟨p', hp', hppk⟩ := stepTo_search_head h hp
  obtain ⟨w', hw', hwpk⟩ := stepTo_search_head h hw
  have hsub := stepTo_boundSet_sub h f.pk
  refine ⟨f', i', e, p', w', hf', hi', he', hp', hw', hv1, hv2, hv3, ?_, ?_, ?_, ?_⟩
  · rw [hfpk, hipk]; exact hsub hb1
  · rw [hfpk]; exact hsub hb2
  · rw [hfpk, hppk]; exact hsub hb3
  · rw [hfpk, hwpk]; exact hsub hb4

/-! ## Per-step wrappers of the generic search-then-create lemmas -/

lemma identStep_establish {fc : Call → Bool} {st : St} {base fs : String}
    (hnf : NoFail fc) :
    ∃ p o', (identStep fc base fs st).2 = some p ∧
      (searchBy (identStep fc base fs st).1 Kind.identStage Fld.name
        (fs ++ "-identification")).head? = some o' ∧ o'.pk = p :=
  ensureObj_establish hnf _ _ _ (fun n => ⟨rfl, rfl, by simp [fld]⟩)

lemma identStep_stepTo (ns : List String) (fc : Call → Bool) (base fs : String)
    (st : St) : StepTo ns st (identStep fc base fs st).1 :=
  ensureObj_stepTo ns fc st _ _ _ _ _ _ (fun n => rfl)

lemma emailStep_establish {fc : Call → Bool} {st : St} {base fs tmpl : String}
    (hnf : NoFail fc) :
    ∃ p o', (emailStep fc base fs tmpl st).2 = some p ∧
      (searchBy (emailStep fc base fs tmpl st).1 Kind.emailStage Fld.name
        (fs ++ "-email")).head? = some o' ∧ o'.pk = p :=
  ensureObj_establish hnf _ _ _ (fun n => ⟨rfl, rfl, by simp [fld]⟩)

lemma emailStep_stepTo (ns : List String) (fc : Call → Bool)
    (base fs tmpl : String) (st : St) :
    StepTo ns st (emailStep fc base fs tmpl st).1 :=
  ensureObj_stepTo ns fc st _ _ _ _ _ _ (fun n => rfl)

lemma userWriteStep_establish {fc : Call → Bool} {st : St} {base fs : String}
    (hnf : NoFail fc) :
    ∃ p o', (userWriteStep fc base fs st).2 = some p ∧
      (searchBy (userWriteStep fc base fs st).1 Kind.userWriteStage Fld.name
        (fs ++ "-user-write")).head? = some o' ∧ o'.pk = p :=
  ensureObj_establish hnf _ _ _ (fun n => ⟨rfl, rfl, by simp [fld]⟩)

lemma userWriteStep_stepTo (ns : List String) (fc : Call → Bool)
    (base fs : String) (st : St) :
    StepTo ns st (userWriteStep fc base fs st).1 :=
  ensureObj_stepTo ns fc st _ _ _ _ _ _ (fun n => rfl)

lemma recoveryFlowEnsure_establish {fc : Call → Bool} {st : St} {base : String}
    {cfg : AppConfig} (hnf : NoFail fc) :
    ∃ p o', (recoveryFlowEnsure fc base cfg st).2 = some p ∧
      (searchBy (recoveryFlowEnsure fc base cfg st).1 Kind.flow Fld.slug
        cfg.recovery_flow_slug).head? = some o' ∧ o'.pk = p :=
  ensureObj_establish hnf _ _ _ (fun n => ⟨rfl, rfl, by simp [fld]⟩)

lemma recoveryFlowEnsure_stepTo (ns : List String) (fc : Call → Bool)
    (base : String) (cfg : AppConfig) (st : St) :
    StepTo ns st (recoveryFlowEnsure fc base cfg st).1 :=
  ensureObj_stepTo ns fc st _ _ _ _ _ _ (fun n => rfl)

@[simp] lemma emailUpd_pk (t : String) (o : Obj) : (emailUpd t o).pk = o.pk := rfl
@[simp] lemma emailUpd_template (t : String) (o : Obj) : (emailUpd t o).template = t := rfl
@[simp] lemma emailUpd_subject (t : String) (o : Obj) : (emailUpd t o).subject = emailSubject := rfl
@[simp] lemma emailUpd_activate (t : String) (o : Obj) : (emailUpd t o).activate_user_on_success = true := rfl

/-- After one `setup_recovery_flow` run on a well-formed store with a
compliant server, the recovery flow of `cfg` is fully provisioned, and
the whole run is a reconciliation step that patches at most the email
stage named for this flow. -/
lemma setupRecoveryFlow_establish {fc : Call → Bool} {st : St} (hnf : NoFail fc)
    (base : String) (cfg : AppConfig) (hwf : WF st) :
    RF cfg (setupRecoveryFlow fc base cfg st) ∧
    StepTo [cfg.recovery_flow_slug ++ "-email"] st
      (setupRecoveryFlow fc base cfg st) := by
  obtain ⟨fp, f0, hr2, hfh, hfpk⟩ :=
    @recoveryFlowEnsure_establish fc st base cfg hnf
  have hstep0 : StepTo [cfg.recovery_flow_slug ++ "-email"] st
      (recoveryFlowEnsure fc base cfg st).1 :=
    recoveryFlowEnsure_stepTo _ fc base cfg st
  simp only [setupRecoveryFlow, hr2]
  simp only [recoveryCore]
  set rs := cfg.recovery_flow_slug with hrs
  set ns := [rs ++ "-email"] with hns
  set st_b := getJson (recoveryFlowEnsure fc base cfg st).1
    (base ++ "/api/v3/flows/bindings/?target=" ++ toString fp ++ "&ordering=order")
    with hstb
  set rI := identStep fc base rs st_b with hrI
  set rE := emailStep fc base rs cfg.email_template rI.1 with hrE
  set stP := emailPatch fc base cfg.email_template rE.2 rE.1 with hstP
  set rP := passwordStep fc base rs stP with hrP
  set rW := userWriteStep fc base rs rP.1 with hrW
  -- the state chain
  have hS_b : StepTo ns st st_b :=
    stepTo_trans hstep0 (stepTo_getJson ns _ _)
  have hW_b : WF st_b := stepTo_wf hwf hS_b
  have hfh_b : (searchBy st_b Kind.flow Fld.slug rs).head? = some f0 := hfh
  -- identification stage
  obtain ⟨ip, i1, hi2, hih, hipk⟩ := @identStep_establish fc st_b base rs hnf
  have hS_I : StepTo ns st_b rI.1 := identStep_stepTo ns fc base rs st_b
  have hW_I : WF rI.1 := stepTo_wf hW_b hS_I
  obtain ⟨f1, hfh1, hfpk1⟩ := stepTo_search_head hS_I hfh_b
  -- email stage
  obtain ⟨ep, e1, he2, heh, hepk⟩ :=
    @emailStep_establish fc rI.1 base rs cfg.email_template hnf
  have hS_E : StepTo ns rI.1 rE.1 := emailStep_stepTo ns fc base rs cfg.email_template rI.1
  have hW_E : WF rE.1 := stepTo_wf hW_I hS_E
  obtain ⟨f2, hfh2, hfpk2⟩ := stepTo_search_head hS_E hfh1
  obtain ⟨i2, hih2, hipk2⟩ := stepTo_search_head hS_E hih
  -- email patch
  obtain ⟨eo, heo_mem, heo_pk, heo_kind, heo_name⟩ := emailStep_target he2
  have hPok : PatchOk rE.1 ns ep :=
    Or.inl ⟨eo, heo_mem, heo_pk, heo_kind, by rw [heo_name, hns]; exact List.mem_singleton.2 rfl⟩
  have hstP_eq : stP = emailPatch fc base cfg.email_template (some ep) rE.1 := by
    rw [hstP, he2]
  have hS_P : StepTo ns rE.1 stP := by
    rw [hstP_eq]
    exact emailPatch_stepTo ns fc base cfg.email_template hPok
  have hW_P : WF stP := stepTo_wf hW_E hS_P
  have heh1 : (searchBy stP Kind.emailStage Fld.name (rs ++ "-email")).head? =
      some (emailUpd cfg.email_template e1) := by
    rw [hstP_eq]
    exact emailPatch_head hnf base cfg.email_template heh hepk
  obtain ⟨f3, hfh3, hfpk3⟩ := stepTo_search_head hS_P hfh2
  obtain ⟨i3, hih3, hipk3⟩ := stepTo_search_head hS_P hih2
  -- password stage
  obtain ⟨pp, p1, hp2, hph, hppk⟩ := @passwordStep_establish fc stP rs hnf base
  have hS_Pw : StepTo ns stP rP.1 := passwordStep_stepTo ns fc base rs stP
  have hW_Pw : WF rP.1 := stepTo_wf hW_P hS_Pw
  obtain ⟨f4, hfh4, hfpk4⟩ := stepTo_search_head hS_Pw hfh3
  obtain ⟨i4, hih4, hipk4⟩ := stepTo_search_head hS_Pw hih3
  have heh2 : (searchBy rP.1 Kind.emailStage Fld.name (rs ++ "-email")).head? =
      some (emailUpd cfg.email_template e1) :=
    stepTo_email_head hW_P (passwordStep_stepTo [] fc base rs stP)
      (by intro h; cases h) heh1
  -- user-write stage
  obtain ⟨wp, w1, hw2, hwh, hwpk⟩ := @userWriteStep_establish fc rP.1 base rs hnf
  have hS_W : StepTo ns rP.1 rW.1 := userWriteStep_stepTo ns fc base rs rP.1
  have hW_W : WF rW.1 := stepTo_wf hW_Pw hS_W
  obtain ⟨f5, hfh5, hfpk5⟩ := stepTo_search_head hS_W hfh4
  obtain ⟨i5, hih5, hipk5⟩ := stepTo_search_head hS_W hih4
  obtain ⟨p5, hph5, hppk5⟩ := stepTo_search_head hS_W hph
  have heh3 : (searchBy rW.1 Kind.emailStage Fld.name (rs ++ "-email")).head? =
      some (emailUpd cfg.email_template e1) :=
    stepTo_email_head hW_Pw (userWriteStep_stepTo [] fc base rs rP.1)
      (by intro h; cases h) heh2
  -- bindings
  have hS_bW : StepTo ns st_b rW.1 :=
    stepTo_trans hS_I (stepTo_trans hS_E (stepTo_trans hS_P
      (stepTo_trans hS_Pw hS_W)))
  have hboundsub : boundSet st_b fp ⊆ boundSet rW.1 fp :=
    stepTo_boundSet_sub hS_bW fp
  have hmem := @bindStages_mem fc rW.1 fp (boundSet st_b fp)
    [(rI.2, 0), (rE.2, 10), (rP.2, 20), (rW.2, 30)] hnf base hboundsub
  have hbI : ip ∈ boundSet (bindStages fc base fp (boundSet st_b fp)
      [(rI.2, 0), (rE.2, 10), (rP.2, 20), (rW.2, 30)] rW.1) fp :=
    hmem (rI.2, 0) (by simp) ip hi2
  have hbE : ep ∈ boundSet (bindStages fc base fp (boundSet st_b fp)
      [(rI.2, 0), (rE.2, 10), (rP.2, 20), (rW.2, 30)] rW.1) fp :=
    hmem (rE.2, 10) (by simp) ep he2
  have hbP : pp ∈ boundSet (bindStages fc base fp (boundSet st_b fp)
      [(rI.2, 0), (rE.2, 10), (rP.2, 20), (rW.2, 30)] rW.1) fp :=
    hmem (rP.2, 20) (by simp) pp hp2
  have hbW : wp ∈ boundSet (bindStages fc base fp (boundSet st_b fp)
      [(rI.2, 0), (rE.2, 10), (rP.2, 20), (rW.2, 30)] rW.1) fp :=
    hmem (rW.2, 30) (by simp) wp hw2
  have hS_fin : StepTo ns rW.1 (bindStages fc base fp (boundSet st_b fp)
      [(rI.2, 0), (rE.2, 10), (rP.2, 20), (rW.2, 30)] rW.1) :=
    bindStages_stepTo ns fc base fp _ _ rW.1
  obtain ⟨f6, hfh6, hfpk6⟩ := stepTo_search_head hS_fin hfh5
  obtain ⟨i6, hih6, hipk6⟩ := stepTo_search_head hS_fin hih5
  obtain ⟨p6, hph6, hppk6⟩ := stepTo_search_head hS_fin hph5
  obtain ⟨w6, hwh6, hwpk6⟩ := stepTo_search_head hS_fin hwh
  have heh4 : (searchBy (bindStages fc base fp (boundSet st_b fp)
      [(rI.2, 0), (rE.2, 10), (rP.2, 20), (rW.2, 30)] rW.1)
      Kind.emailStage Fld.name (rs ++ "-email")).head? =
      some (emailUpd cfg.email_template e1) :=
    stepTo_email_head hW_W (bindStages_stepTo [] fc base fp _ _ rW.1)
      (by intro h; cases h) heh3
  constructor
  · refine ⟨f6, i6, emailUpd cfg.email_template e1, p6, w6,
      hfh6, hih6, heh4, hph6, hwh6, by simp, by simp, by simp, ?_, ?_, ?_, ?_⟩
    · rw [hipk6, hipk5, hipk4, hipk3, hipk2, hipk,
        hfpk6, hfpk5, hfpk4, hfpk3, hfpk2, hfpk1, hfpk]
      exact hbI
    · rw [emailUpd_pk, hepk,
        hfpk6, hfpk5, hfpk4, hfpk3, hfpk2, hfpk1, hfpk]
      exact hbE
    · rw [hppk6, hppk5, hppk,
        hfpk6, hfpk5, hfpk4, hfpk3, hfpk2, hfpk1, hfpk]
      exact hbP
    · rw [hwpk6, hwpk,
        hfpk6, hfpk5, hfpk4, hfpk3, hfpk2, hfpk1, hfpk]
      exact hbW
  · exact stepTo_trans hS_b (stepTo_trans hS_bW hS_fin)

/-- On a well-formed store where the recovery flow of `cfg` is already
fully provisioned, `setup_recovery_flow` changes nothing in the store:
every lookup succeeds, the unconditional email patch rewrites the fields
to their current values, and every binding is already present. -/
lemma setupRecoveryFlow_fix {fc : Call → Bool} {st : St} (hnf : NoFail fc)
    (base : String) (cfg : AppConfig) (hwf : WF st) (hRF : RF cfg st) :
    (setupRecoveryFlow fc base cfg st).objs = st.objs ∧
    (setupRecoveryFlow fc base cfg st).nextPk = st.nextPk := by
  obtain ⟨f, i, e, p, w, hf, hi, he, hp, hw, hv1, hv2, hv3, hb1, hb2, hb3, hb4⟩ := hRF
  set rs := cfg.recovery_flow_slug with hrs
  cases hfs : searchBy st Kind.flow Fld.slug rs with
  | nil => rw [hfs] at hf; simp at hf
  | cons a t =>
  rw [hfs, List.head?_cons] at hf
  injection hf with hf
  subst hf
  cases his : searchBy st Kind.identStage Fld.name (rs ++ "-identification") with
  | nil => rw [his] at hi; simp at hi
  | cons ai ti =>
  rw [his, List.head?_cons] at hi
  injection hi with hi
  subst hi
  cases hes : searchBy st Kind.emailStage Fld.name (rs ++ "-email") with
  | nil => rw [hes] at he; simp at he
  | cons ae te =>
  rw [hes, List.head?_cons] at he
  injection he with he
  subst he
  cases hps : searchBy st Kind.promptStage Fld.name (rs ++ "-password") with
  | nil => rw [hps] at hp; simp at hp
  | cons ap tp =>
  rw [hps, List.head?_cons] at hp
  injection hp with hp
  subst hp
  cases hws : searchBy st Kind.userWriteStage Fld.name (rs ++ "-user-write") with
  | nil => rw [hws] at hw; simp at hw
  | cons aw tw =>
  rw [hws, List.head?_cons] at hw
  injection hw with hw
  subst hw
  -- flow lookup succeeds
  have hre : recoveryFlowEnsure fc base cfg st =
      (getJson st (base ++ "/api/v3/flows/instances/?slug=" ++ rs), some a.pk) := by
    unfold recoveryFlowEnsure
    exact ensureObj_found fc _ _ _ hfs
  simp only [setupRecoveryFlow, hre, recoveryCore]
  set st_b := getJson (getJson st (base ++ "/api/v3/flows/instances/?slug=" ++ rs))
    (base ++ "/api/v3/flows/bindings/?target=" ++ toString a.pk ++ "&ordering=order")
    with hstb
  -- identification lookup succeeds
  have hIr : identStep fc base rs st_b =
      (getJson st_b (base ++ "/api/v3/stages/identification/?search=" ++
        (rs ++ "-identification")), some ai.pk) := by
    unfold identStep
    exact ensureObj_found fc _ _ _ his
  -- email lookup succeeds
  have hEr : emailStep fc base rs cfg.email_template
      (getJson st_b (base ++ "/api/v3/stages/identification/?search=" ++
        (rs ++ "-identification"))) =
      (getJson (getJson st_b (base ++ "/api/v3/stages/identification/?search=" ++
        (rs ++ "-identification")))
        (base ++ "/api/v3/stages/email/?search=" ++ (rs ++ "-email")), some ae.pk) := by
    unfold emailStep
    exact ensureObj_found fc _ _ _ hes
  simp only [hIr, hEr]
  set stE := getJson (getJson st_b (base ++ "/api/v3/stages/identification/?search=" ++
    (rs ++ "-identification")))
    (base ++ "/api/v3/stages/email/?search=" ++ (rs ++ "-email")) with hstE
  -- the patch is a no-op on the store
  have he_mem : ae ∈ stE.objs := (mem_of_mem_selFilter (by
    show ae ∈ selFilter Kind.emailStage Fld.name (rs ++ "-email") st.objs
    have : ae ∈ searchBy st Kind.emailStage Fld.name (rs ++ "-email") := by
      rw [hes]; exact List.mem_cons_self _ _
    exact this)).1
  obtain ⟨hpo, hpn⟩ := emailPatch_db_self hnf base cfg.email_template
    (show WF stE from hwf) he_mem rfl hv1 hv2 hv3
  have hpo' : (emailPatch fc base cfg.email_template (some ae.pk) stE).objs
      = st.objs := hpo
  have hpn' : (emailPatch fc base cfg.email_template (some ae.pk) stE).nextPk
      = st.nextPk := hpn
  set stPt := emailPatch fc base cfg.email_template (some ae.pk) stE with hstPt
  -- password lookup succeeds
  have hPr : passwordStep fc base rs stPt =
      (getJson stPt (base ++ "/api/v3/stages/prompt/stages/?search=" ++
        (rs ++ "-password")), some ap.pk) := by
    apply passwordStep_found
    rw [searchBy_objs_eq hpo']
    exact hps
  -- user-write lookup succeeds
  have hWr : userWriteStep fc base rs
      (getJson stPt (base ++ "/api/v3/stages/prompt/stages/?search=" ++
        (rs ++ "-password"))) =
      (getJson (getJson stPt (base ++ "/api/v3/stages/prompt/stages/?search=" ++
        (rs ++ "-password")))
        (base ++ "/api/v3/stages/user_write/?search=" ++ (rs ++ "-user-write")),
        some aw.pk) := by
    unfold userWriteStep
    apply ensureObj_found
    show searchBy (getJson stPt _) Kind.userWriteStage Fld.name (rs ++ "-user-write")
      = aw :: tw
    rw [searchBy_getJson, searchBy_objs_eq hpo']
    exact hws
  simp only [hPr, hWr]
  -- every binding is already present
  have hball : bindStages fc base a.pk (boundSet st_b a.pk)
      [(some ai.pk, 0), (some ae.pk, 10), (some ap.pk, 20), (some aw.pk, 30)]
      (getJson (getJson stPt (base ++ "/api/v3/stages/prompt/stages/?search=" ++
        (rs ++ "-password")))
        (base ++ "/api/v3/stages/user_write/?search=" ++ (rs ++ "-user-write"))) =
      getJson (getJson stPt (base ++ "/api/v3/stages/prompt/stages/?search=" ++
        (rs ++ "-password")))
        (base ++ "/api/v3/stages/user_write/?search=" ++ (rs ++ "-user-write")) := by
    apply bindStages_db_all_bound
    intro x hx q hq
    have hbound : boundSet st_b a.pk = boundSet st a.pk := rfl
    rw [hbound]
    simp only [List.mem_cons, List.not_mem_nil, or_false] at hx
    rcases hx with rfl | rfl | rfl | rfl
    all_goals (injection hq with hq; subst hq; assumption)
  rw [hball]
  constructor
  · show stPt.objs = st.objs
    exact hpo'
  · show stPt.nextPk = st.nextPk
    exact hpn'

/-! ## The reconciliation phase as a whole -/

lemma runReconcile_establish {fc : Call → Bool} {st : St} (hnf : NoFail fc)
    (base : String) (skip : Bool) (vk : String → Bool) (af ivf cp : Nat)
    (m : List Nat) (hwf : WF st) :
    PA appProd (runReconcile fc base skip vk st af ivf cp m).st ∧
    PA appPreview (runReconcile fc base skip vk st af ivf cp m).st ∧
    RF appProd (runReconcile fc base skip vk st af ivf cp m).st ∧
    RF appPreview (runReconcile fc base skip vk st af ivf cp m).st ∧
    WF (runReconcile fc base skip vk st af ivf cp m).st ∧
    StepTo [appProd.recovery_flow_slug ++ "-email",
      appPreview.recovery_flow_slug ++ "-email"] st
      (runReconcile fc base skip vk st af ivf cp m).st := by
  set ns := [appProd.recovery_flow_slug ++ "-email",
    appPreview.recovery_flow_slug ++ "-email"] with hnsdef
  simp only [runReconcile, APPS, List.foldl_cons, List.foldl_nil]
  set s1 := (provisionApp fc base appProd af ivf cp m st).1 with hs1
  set s2 := (provisionApp fc base appPreview af ivf cp m s1).1 with hs2
  set s3 := setupRecoveryFlow fc base appProd s2 with hs3
  set s4 := setupRecoveryFlow fc base appPreview s3 with hs4
  have hS1 : StepTo ns st s1 := provisionApp_stepTo ns fc base appProd af ivf cp m st
  have hW1 : WF s1 := stepTo_wf hwf hS1
  have hPA1 : PA appProd s1 :=
    (provisionApp_establish hnf base rfl af ivf cp m).1
  have hS2 : StepTo ns s1 s2 := provisionApp_stepTo ns fc base appPreview af ivf cp m s1
  have hW2 : WF s2 := stepTo_wf hW1 hS2
  have hPA2 : PA appPreview s2 :=
    (provisionApp_establish hnf base rfl af ivf cp m).1
  have hPA1' : PA appProd s2 := PA_stable hS2 hPA1
  obtain ⟨hRF1, hS3'⟩ := setupRecoveryFlow_establish hnf base appProd hW2
  have hS3 : StepTo ns s2 s3 := stepTo_mono_ns (by intro x hx; rw [List.mem_singleton] at hx; subst hx; exact List.mem_cons_self _ _) hS3'
  have hW3 : WF s3 := stepTo_wf hW2 hS3
  have hPA1'' : PA appProd s3 := PA_stable hS3 hPA1'
  have hPA2' : PA appPreview s3 := PA_stable hS3 hPA2
  obtain ⟨hRF2, hS4'⟩ := setupRecoveryFlow_establish hnf base appPreview hW3
  have hS4 : StepTo ns s3 s4 := stepTo_mono_ns
    (by intro x hx; rw [List.mem_singleton] at hx; subst hx
        exact List.mem_cons_of_mem _ (List.mem_cons_self _ _)) hS4'
  have hW4 : WF s4 := stepTo_wf hW3 hS4
  have hPA1''' : PA appProd s4 := PA_stable hS4 hPA1''
  have hPA2'' : PA appPreview s4 := PA_stable hS4 hPA2'
  have hRF1' : RF appProd s4 :=
    RF_stable hW3 hS4' (by decide) hRF1
  -- the verification GETs change only the request log
  set s5 := getJson (getJson s4 (base ++ "/application/o/" ++ appProd.slug ++
    "/.well-known/openid-configuration"))
    (base ++ "/application/o/" ++ appPreview.slug ++
      "/.well-known/openid-configuration") with hs5
  have h5o : s5.objs = s4.objs := rfl
  have h5n : s5.nextPk = s4.nextPk := rfl
  refine ⟨PA_objs_eq h5o hPA1''', PA_objs_eq h5o hPA2'',
    RF_objs_eq h5o hRF1', RF_objs_eq h5o hRF2, WF_db_eq h5o h5n hW4, ?_⟩
  exact stepTo_trans hS1 (stepTo_trans hS2 (stepTo_trans hS3 (stepTo_trans hS4
    (stepTo_trans (stepTo_getJson ns s4 _) (stepTo_getJson ns _ _)))))

lemma runReconcile_fix {fc : Call → Bool} {st : St} (hnf : NoFail fc)
    (base : String) (skip : Bool) (vk : String → Bool) (af ivf cp : Nat)
    (m : List Nat) (hwf : WF st) (h1 : PA appProd st) (h2 : PA appPreview st)
    (h3 : RF appProd st) (h4 : RF appPreview st) :
    (runReconcile fc base skip vk st af ivf cp m).st.objs = st.objs ∧
    (runReconcile fc base skip vk st af ivf cp m).st.nextPk = st.nextPk := by
  simp only [runReconcile, APPS, List.foldl_cons, List.foldl_nil]
  set s1 := (provisionApp fc base appProd af ivf cp m st).1 with hs1
  set s2 := (provisionApp fc base appPreview af ivf cp m s1).1 with hs2
  set s3 := setupRecoveryFlow fc base appProd s2 with hs3
  set s4 := setupRecoveryFlow fc base appPreview s3 with hs4
  obtain ⟨h1o, h1n⟩ := provisionApp_fix base af ivf cp m h1
  obtain ⟨h2o, h2n⟩ := provisionApp_fix base af ivf cp m (PA_objs_eq h1o h2)
  have h2o' : s2.objs = st.objs := h2o.trans h1o
  have h2n' : s2.nextPk = st.nextPk := h2n.trans h1n
  obtain ⟨h3o, h3n⟩ := setupRecoveryFlow_fix hnf base appProd
    (WF_db_eq h2o' h2n' hwf) (RF_objs_eq h2o' h3)
  have h3o' : s3.objs = st.objs := h3o.trans h2o'
  have h3n' : s3.nextPk = st.nextPk := h3n.trans h2n'
  obtain ⟨h4o, h4n⟩ := setupRecoveryFlow_fix hnf base appPreview
    (WF_db_eq h3o' h3n' hwf) (RF_objs_eq h3o' h4)
  exact ⟨h4o.trans h3o', h4n.trans h3n'⟩

/-- Idempotence from the certificate check onward: a second pass over
the store produced by a first pass leaves the database untouched. -/
lemma runAfterToken_idem {fc : Call → Bool} {st : St} (hnf : NoFail fc)
    (hwf : WF st) (base : String) (skip : Bool) (vk : String → Bool) :
    dbOf (runAfterToken fc base skip vk
        (runAfterToken fc base skip vk st).st).st
      = dbOf (runAfterToken fc base skip vk st).st := by
  unfold runAfterToken
  cases hc : searchBy st Kind.cert Fld.name certName with
  | nil =>
      simp only [searchBy_getJson, hc]
      rfl
  | cons c t =>
      simp only [searchBy_getJson, hc]
      unfold runAfterCert
      simp only [findFlowPk_getJson]
      cases haf : findFlowPk st authFlowSlug with
      | none =>
          simp only []
          cases hif : findFlowPk st invFlowSlug <;>
            simp only [searchBy_getJson, findFlowPk_getJson, hc, haf] <;> rfl
      | some af =>
          cases hif : findFlowPk st invFlowSlug with
          | none =>
              simp only [searchBy_getJson, findFlowPk_getJson, hc, haf, hif]
              rfl
          | some ivf =>
              simp only []
              obtain ⟨hPA1, hPA2, hRF1, hRF2, hwfR, hstep⟩ :=
                @runReconcile_establish fc (getJson (getJson (getJson st (base ++ "/api/v3/crypto/certificatekeypairs/?name=authentik+Self-signed+Certificate")) (base ++ "/api/v3/flows/instances/")) (base ++ "/api/v3/propertymappings/provider/scope/"))
                  hnf base skip vk af ivf c.pk (mappingsOf (getJson (getJson (getJson st (base ++ "/api/v3/crypto/certificatekeypairs/?name=authentik+Self-signed+Certificate")) (base ++ "/api/v3/flows/instances/")) (base ++ "/api/v3/propertymappings/provider/scope/"))) hwf
              set R := (runReconcile fc base skip vk (getJson (getJson (getJson st (base ++ "/api/v3/crypto/certificatekeypairs/?name=authentik+Self-signed+Certificate")) (base ++ "/api/v3/flows/instances/")) (base ++ "/api/v3/propertymappings/provider/scope/"))
                af ivf c.pk (mappingsOf (getJson (getJson (getJson st (base ++ "/api/v3/crypto/certificatekeypairs/?name=authentik+Self-signed+Certificate")) (base ++ "/api/v3/flows/instances/")) (base ++ "/api/v3/propertymappings/provider/scope/")))).st with hR
              clear_value R
              have hcne : searchBy R Kind.cert Fld.name certName ≠ [] := by
                apply stepTo_search_ne hstep
                show searchBy st Kind.cert Fld.name certName ≠ []
                rw [hc]
                intro hx
                cases hx
              cases hc2 : searchBy R Kind.cert Fld.name certName with
              | nil => exact absurd hc2 hcne
              | cons c2 t2 =>
                  simp only [searchBy_getJson, hc2]
                  obtain ⟨af2, haf2⟩ := stepTo_findFlow_some hstep
                    (show findFlowPk st authFlowSlug = some af from haf)
                  obtain ⟨ivf2, hif2⟩ := stepTo_findFlow_some hstep
                    (show findFlowPk st invFlowSlug = some ivf from hif)
                  rw [haf2, hif2]
                  obtain ⟨hfo, hfn⟩ := @runReconcile_fix fc (getJson (getJson (getJson R (base ++ "/api/v3/crypto/certificatekeypairs/?name=authentik+Self-signed+Certificate")) (base ++ "/api/v3/flows/instances/")) (base ++ "/api/v3/propertymappings/provider/scope/"))
                    hnf base skip vk af2 ivf2 c2.pk
                    (mappingsOf (getJson (getJson (getJson R (base ++ "/api/v3/crypto/certificatekeypairs/?name=authentik+Self-signed+Certificate")) (base ++ "/api/v3/flows/instances/")) (base ++ "/api/v3/propertymappings/provider/scope/")))
                    (WF_db_eq rfl rfl hwfR) (PA_objs_eq rfl hPA1) (PA_objs_eq rfl hPA2)
                    (RF_objs_eq rfl hRF1) (RF_objs_eq rfl hRF2)
                  unfold dbOf
                  rw [hfo, hfn]
                  rfl

/-! ## Request-log facts for the create-call claims -/

lemma ensureObj_some {fc : Call → Bool} {st : St} {k : Kind} {sel : Fld}
    {q : String} (hnf : NoFail fc) (url : String) (c : Call) (mk : Nat → Obj) :
    ∃ p, (ensureObj fc st url k sel q c mk).2 = some p := by
  cases hs : searchBy st k sel q with
  | cons o t =>
      rw [ensureObj_found fc url c mk hs]
      exact ⟨o.pk, rfl⟩
  | nil =>
      rw [ensureObj_create hnf url c mk hs]
      exact ⟨st.nextPk, rfl⟩

lemma ensureObj_callsFacts {c : Call} (fc : Call → Bool) (st : St)
    (url : String) (k : Kind) (sel : Fld) (q : String) (mk : Nat → Obj)
    (hc : c.method = "POST") :
    ∃ Δ, (ensureObj fc st url k sel q c mk).1.calls = st.calls ++ Δ ∧
      (searchBy st k sel q ≠ [] → Δ = [⟨"GET", url, Payload.empty⟩]) ∧
      (∀ x ∈ Δ, x.payload = Payload.empty ∨ x = c) ∧
      (∀ x ∈ Δ, x.method = "GET" ∨ x.method = "POST") := by
  rw [ensureObj_calls]
  by_cases hs : searchBy st k sel q = []
  · rw [if_pos hs]
    refine ⟨_, rfl, fun hne => absurd hs hne, ?_, ?_⟩
    · intro x hx
      rcases List.mem_cons.1 hx with rfl | hx
      · exact Or.inl rfl
      · rw [List.mem_singleton] at hx
        exact Or.inr hx
    · intro x hx
      rcases List.mem_cons.1 hx with rfl | hx
      · exact Or.inl rfl
      · rw [List.mem_singleton] at hx
        subst hx
        exact Or.inr hc
  · rw [if_neg hs]
    refine ⟨_, rfl, fun _ => rfl, ?_, ?_⟩
    · intro x hx
      rw [List.mem_singleton] at hx
      subst hx
      exact Or.inl rfl
    · intro x hx
      rw [List.mem_singleton] at hx
      subst hx
      exact Or.inl rfl

lemma recoveryFlowEnsure_callsFacts (fc : Call → Bool) (base : String)
    (cfg : AppConfig) (st : St) :
    ∃ Δ, (recoveryFlowEnsure fc base cfg st).1.calls = st.calls ++ Δ ∧
      (searchBy st Kind.flow Fld.slug cfg.recovery_flow_slug ≠ [] →
        Δ = [⟨"GET", base ++ "/api/v3/flows/instances/?slug=" ++
          cfg.recovery_flow_slug, Payload.empty⟩]) ∧
      (∀ x ∈ Δ, x.payload = Payload.empty ∨
        x.payload = Payload.flow (cfg.name ++ " Recovery") cfg.recovery_flow_slug) ∧
      (∀ x ∈ Δ, x.method = "GET" ∨ x.method = "POST") := by
  obtain ⟨Δ, h1, h2, h3, h4⟩ := @ensureObj_callsFacts
    ⟨"POST", base ++ "/api/v3/flows/instances/",
      Payload.flow (cfg.name ++ " Recovery") cfg.recovery_flow_slug⟩ fc st
    (base ++ "/api/v3/flows/instances/?slug=" ++ cfg.recovery_flow_slug)
    Kind.flow Fld.slug cfg.recovery_flow_slug
    (fun n => mkFlow n (cfg.name ++ " Recovery") cfg.recovery_flow_slug "recovery")
    rfl
  exact ⟨Δ, h1, h2, fun x hx => (h3 x hx).imp id (fun he => by rw [he]), h4⟩

lemma identStep_callsFacts (fc : Call → Bool) (base fs : String) (st : St) :
    ∃ Δ, (identStep fc base fs st).1.calls = st.calls ++ Δ ∧
      (searchBy st Kind.identStage Fld.name (fs ++ "-identification") ≠ [] →
        Δ = [⟨"GET", base ++ "/api/v3/stages/identification/?search=" ++
          (fs ++ "-identification"), Payload.empty⟩]) ∧
      (∀ x ∈ Δ, x.payload = Payload.empty ∨
        x.payload = Payload.identStage (fs ++ "-identification")) ∧
      (∀ x ∈ Δ, x.method = "GET" ∨ x.method = "POST") := by
  obtain ⟨Δ, h1, h2, h3, h4⟩ := @ensureObj_callsFacts
    ⟨"POST", base ++ "/api/v3/stages/identification/",
      Payload.identStage (fs ++ "-identification")⟩ fc st
    (base ++ "/api/v3/stages/identification/?search=" ++ (fs ++ "-identification"))
    Kind.identStage Fld.name (fs ++ "-identification")
    (fun n => mkIdentStage n (fs ++ "-identification"))
    rfl
  exact ⟨Δ, h1, h2, fun x hx => (h3 x hx).imp id (fun he => by rw [he]), h4⟩

lemma emailStep_callsFacts (fc : Call → Bool) (base fs tmpl : String) (st : St) :
    ∃ Δ, (emailStep fc base fs tmpl st).1.calls = st.calls ++ Δ ∧
      (searchBy st Kind.emailStage Fld.name (fs ++ "-email") ≠ [] →
        Δ = [⟨"GET", base ++ "/api/v3/stages/email/?search=" ++
          (fs ++ "-email"), Payload.empty⟩]) ∧
      (∀ x ∈ Δ, x.payload = Payload.empty ∨
        x.payload = Payload.emailStage (fs ++ "-email") tmpl emailSubject) ∧
      (∀ x ∈ Δ, x.method = "GET" ∨ x.method = "POST") := by
  obtain ⟨Δ, h1, h2, h3, h4⟩ := @ensureObj_callsFacts
    ⟨"POST", base ++ "/api/v3/stages/email/",
      Payload.emailStage (fs ++ "-email") tmpl emailSubject⟩ fc st
    (base ++ "/api/v3/stages/email/?search=" ++ (fs ++ "-email"))
    Kind.emailStage Fld.name (fs ++ "-email")
    (fun n => mkEmailStage n (fs ++ "-email") tmpl)
    rfl
  exact ⟨Δ, h1, h2, fun x hx => (h3 x hx).imp id (fun he => by rw [he]), h4⟩

lemma userWriteStep_callsFacts (fc : Call → Bool) (base fs : String) (st : St) :
    ∃ Δ, (userWriteStep fc base fs st).1.calls = st.calls ++ Δ ∧
      (searchBy st Kind.userWriteStage Fld.name (fs ++ "-user-write") ≠ [] →
        Δ = [⟨"GET", base ++ "/api/v3/stages/user_write/?search=" ++
          (fs ++ "-user-write"), Payload.empty⟩]) ∧
      (∀ x ∈ Δ, x.payload = Payload.empty ∨
        x.payload = Payload.userWriteStage (fs ++ "-user-write")) ∧
      (∀ x ∈ Δ, x.method = "GET" ∨ x.method = "POST") := by
  obtain ⟨Δ, h1, h2, h3, h4⟩ := @ensureObj_callsFacts
    ⟨"POST", base ++ "/api/v3/stages/user_write/",
      Payload.userWriteStage (fs ++ "-user-write")⟩ fc st
    (base ++ "/api/v3/stages/user_write/?search=" ++ (fs ++ "-user-write"))
    Kind.userWriteStage Fld.name (fs ++ "-user-write")
    (fun n => mkUserWriteStage n (fs ++ "-user-write"))
    rfl
  exact ⟨Δ, h1, h2, fun x hx => (h3 x hx).imp id (fun he => by rw [he]), h4⟩

lemma passwordStep_callsFacts (fc : Call → Bool) (base fs : String) (st : St) :
    ∃ Δ, (passwordStep fc base fs st).1.calls = st.calls ++ Δ ∧
      (searchBy st Kind.promptStage Fld.name (fs ++ "-password") ≠ [] →
        Δ = [⟨"GET", base ++ "/api/v3/stages/prompt/stages/?search=" ++
          (fs ++ "-password"), Payload.empty⟩]) ∧
      (∀ x ∈ Δ, x.payload = Payload.empty ∨
        isPromptFieldPayload x.payload = true ∨
        ∃ flds, x.payload = Payload.promptStage (fs ++ "-password") flds) ∧
      (∀ x ∈ Δ, x.method = "GET" ∨ x.method = "POST") := by
  cases hs : searchBy st Kind.promptStage Fld.name (fs ++ "-password") with
  | cons o t =>
      rw [passwordStep_found base hs]
      refine ⟨_, rfl, fun _ => rfl, ?_, ?_⟩
      · intro x hx
        rw [List.mem_singleton] at hx
        subst hx
        exact Or.inl rfl
      · intro x hx
        rw [List.mem_singleton] at hx
        subst hx
        exact Or.inl rfl
  | nil =>
      rw [passwordStep_nil base hs]
      obtain ⟨mid, p1, p2, hcalls, hmid⟩ := passwordCreate_calls fc base fs
        (getJson st (base ++ "/api/v3/stages/prompt/stages/?search=" ++
          (fs ++ "-password")))
      refine ⟨[⟨"GET", base ++ "/api/v3/stages/prompt/stages/?search=" ++
          (fs ++ "-password"), Payload.empty⟩] ++
          ([⟨"GET", base ++ "/api/v3/stages/prompt/prompts/", Payload.empty⟩] ++
            mid ++
            [⟨"POST", base ++ "/api/v3/stages/prompt/stages/",
              Payload.promptStage (fs ++ "-password")
                ([p1, p2].filterMap id)⟩]),
        ?_, fun hne => absurd rfl hne, ?_, ?_⟩
      · rw [hcalls]
        simp [List.append_assoc]
      · intro x hx
        rcases List.mem_append.1 hx with hx | hx
        · rw [List.mem_singleton] at hx
          subst hx
          exact Or.inl rfl
        · rcases List.mem_append.1 hx with hx | hx
          · rcases List.mem_append.1 hx with hx | hx
            · rw [List.mem_singleton] at hx
              subst hx
              exact Or.inl rfl
            · exact Or.inr (Or.inl (hmid x hx).2)
          · rw [List.mem_singleton] at hx
            subst hx
            exact Or.inr (Or.inr ⟨[p1, p2].filterMap id, rfl⟩)
      · intro x hx
        rcases List.mem_append.1 hx with hx | hx
        · rw [List.mem_singleton] at hx
          subst hx
          exact Or.inl rfl
        · rcases List.mem_append.1 hx with hx | hx
          · rcases List.mem_append.1 hx with hx | hx
            · rw [List.mem_singleton] at hx
              subst hx
              exact Or.inl rfl
            · exact Or.inr (hmid x hx).1
          · rw [List.mem_singleton] at hx
            subst hx
            exact Or.inr rfl

lemma bindStages_callsFacts (fc : Call → Bool) (base : String) (fp : Nat)
    (bound : List Nat) (stages : List (Option Nat × Nat)) (st : St) :
    ∃ Δ, (bindStages fc base fp bound stages st).calls = st.calls ++ Δ ∧
      ∀ x ∈ Δ, x.method = "POST" ∧ isBindingPayload x.payload = true := by
  rw [bindStages_calls]
  refine ⟨_, rfl, ?_⟩
  intro x hx
  rw [List.mem_filterMap] at hx
  obtain ⟨y, _, hy⟩ := hx
  cases h1 : y.1 with
  | none => rw [h1] at hy; cases hy
  | some p =>
      rw [h1] at hy
      by_cases h2 : p ∈ bound
      · simp only [h2, if_true] at hy
        cases hy
      · simp only [h2, if_false] at hy
        injection hy with hy
        subst hy
        exact ⟨rfl, rfl⟩

lemma isPromptFieldPayload_spec {pl : Payload}
    (h : isPromptFieldPayload pl = true) :
    ∃ a b c, pl = Payload.promptField a b c := by
  cases pl <;> first
    | exact ⟨_, _, _, rfl⟩
    | simp [isPromptFieldPayload] at h

lemma isBindingPayload_spec {pl : Payload}
    (h : isBindingPayload pl = true) :
    ∃ a b c, pl = Payload.binding a b c := by
  cases pl <;> first
    | exact ⟨_, _, _, rfl⟩
    | simp [isBindingPayload] at h

lemma userWriteStep_get_mem (fc : Call → Bool) (base fs : String) (st : St) :
    (⟨"GET", base ++ "/api/v3/stages/user_write/?search=" ++
      (fs ++ "-user-write"), Payload.empty⟩ : Call) ∈
      (userWriteStep fc base fs st).1.calls := by
  simp only [userWriteStep]
  rw [ensureObj_calls]
  refine List.mem_append.2 (Or.inr ?_)
  by_cases hs : searchBy st Kind.userWriteStage Fld.name (fs ++ "-user-write") = []
  · rw [if_pos hs]
    exact List.mem_cons_self _ _
  · rw [if_neg hs]
    exact List.mem_singleton.2 rfl

lemma recoveryCore_userWrite_get_mem (fc : Call → Bool) (base : String)
    (cfg : AppConfig) (st : St) (fp : Nat) :
    (⟨"GET", base ++ "/api/v3/stages/user_write/?search=" ++
      (cfg.recovery_flow_slug ++ "-user-write"), Payload.empty⟩ : Call) ∈
      (recoveryCore fc base cfg st fp).calls := by
  simp only [recoveryCore]
  set rs := cfg.recovery_flow_slug with hrs
  set st_b := getJson st (base ++ "/api/v3/flows/bindings/?target=" ++
    toString fp ++ "&ordering=order") with hstb
  set rI := identStep fc base rs st_b with hrI
  set rE := emailStep fc base rs cfg.email_template rI.1 with hrE
  set stP := emailPatch fc base cfg.email_template rE.2 rE.1 with hstP
  set rP := passwordStep fc base rs stP with hrP
  set rW := userWriteStep fc base rs rP.1 with hrW
  obtain ⟨ΔB, hB1, _⟩ := bindStages_callsFacts fc base fp (boundSet st_b fp)
    [(rI.2, 0), (rE.2, 10), (rP.2, 20), (rW.2, 30)] rW.1
  rw [hB1]
  refine List.mem_append.2 (Or.inl ?_)
  rw [hrW]
  exact userWriteStep_get_mem fc base rs rP.1

/-! ## Claim theorems -/

/-- C1 counterexample: the claim says the HTTP wrapper `api` never
raises past its boundary on a transport error.  The source catches only
`urllib.error.HTTPError`, so a transport-level `URLError` propagates:
at this concrete input `api` raises instead of returning a mapping. -/
theorem claim_C1_counterexample :
    api (fun _ => none) "https://auth.bike-weather.com" "GET"
      "/api/v3/flows/instances/"
      (HttpResult.transportError "urllib.error.URLError: connection refused")
    = Except.error "urllib.error.URLError: connection refused" := rfl

/-- C1 (amended): on a non-2xx HTTP response (`HTTPError`), `api` never
raises: it returns the parsed error JSON when the error body parses, and
the empty mapping otherwise.  Transport errors that are not HTTP
responses propagate as exceptions (see the counterexample). -/
theorem claim_C1 :
    ∀ parse base method path code body,
      api parse base method path (HttpResult.httpError code body) =
        Except.ok ((parse body).getD (Json.obj [])) := by
  intro parse base method path code body
  cases h : parse body <;> simp [api, h]

/-- C2: the reconciliation is idempotent.  First part: for every
well-formed initial remote state and every input, running `main` a
second time on the state produced by a first run leaves the database
(objects and pk counter) exactly as the first run left it.  Second part,
the concrete fully-provisioned scenario: starting from the provisioned
state `st1`, a run issues zero POST requests and exactly two PATCH
requests (one email-stage patch per application) and exits 0. -/
theorem claim_C2 :
    (∀ fc args pod exec vk st, NoFail fc → WF st →
      dbOf (runMain fc args pod exec vk
          ((runMain fc args pod exec vk st).st)).st
        = dbOf ((runMain fc args pod exec vk st).st))
  ∧ (runMain fcNone args0 pod0 exec0 vkTrue st1).exit = 0
  ∧ postCount (runMain fcNone args0 pod0 exec0 vkTrue st1).st.calls = 0
  ∧ patchCount (runMain fcNone args0 pod0 exec0 vkTrue st1).st.calls = 2
  ∧ payloadCount isEmailPatchPayload
      (runMain fcNone args0 pod0 exec0 vkTrue st1).st.calls = 2 := by
  constructor
  · intro fc args pod exec vk st hnf hwf
    unfold runMain
    by_cases h1 : podNameOf pod = ""
    · simp [h1]
    · by_cases h2 : tokenBad exec = true
      · simp [h1, h2]
      · simp only [if_neg h1, if_neg h2]
        exact runAfterToken_idem hnf hwf (rstripSlashes args.base_url)
          args.skip_keyvault vk
  · exact ⟨by decide, by decide, by decide, by decide⟩

/-- C2 witness: the idempotence theorem applied to the concrete
prerequisite-only state, whose well-formedness is checked by
computation. -/
theorem claim_C2_witness :
    NoFail fcNone ∧ WF st0 ∧
    dbOf (runMain fcNone args0 pod0 exec0 vkTrue
        ((runMain fcNone args0 pod0 exec0 vkTrue st0).st)).st
      = dbOf ((runMain fcNone args0 pod0 exec0 vkTrue st0).st) :=
  ⟨fun c => rfl, by decide,
    claim_C2.1 fcNone args0 pod0 exec0 vkTrue st0 (fun c => rfl) (by decide)⟩

/-- C3: from an empty remote state holding only the prerequisites
(`st0`), one run over the two target applications issues exactly 2
provider creates, 2 application creates, 2 recovery-flow creates,
8 stage creates and 8 binding creates, and the final store holds exactly
2 providers, 2 applications, 2 recovery flows, 8 stages and 8
bindings. -/
theorem claim_C3 :
    payloadCount isProviderPayload
        (runMain fcNone args0 pod0 exec0 vkTrue st0).st.calls = 2 ∧
    payloadCount isApplicationPayload
        (runMain fcNone args0 pod0 exec0 vkTrue st0).st.calls = 2 ∧
    payloadCount isFlowPayload
        (runMain fcNone args0 pod0 exec0 vkTrue st0).st.calls = 2 ∧
    payloadCount isStagePayload
        (runMain fcNone args0 pod0 exec0 vkTrue st0).st.calls = 8 ∧
    payloadCount isBindingPayload
        (runMain fcNone args0 pod0 exec0 vkTrue st0).st.calls = 8 ∧
    kindCount (runMain fcNone args0 pod0 exec0 vkTrue st0).st Kind.provider = 2 ∧
    kindCount (runMain fcNone args0 pod0 exec0 vkTrue st0).st Kind.application = 2 ∧
    kindCount (runMain fcNone args0 pod0 exec0 vkTrue st0).st Kind.flow = 4 ∧
    kindCount (runMain fcNone args0 pod0 exec0 vkTrue st0).st Kind.identStage = 2 ∧
    kindCount (runMain fcNone args0 pod0 exec0 vkTrue st0).st Kind.emailStage = 2 ∧
    kindCount (runMain fcNone args0 pod0 exec0 vkTrue st0).st Kind.promptStage = 2 ∧
    kindCount (runMain fcNone args0 pod0 exec0 vkTrue st0).st Kind.userWriteStage = 2 ∧
    kindCount (runMain fcNone args0 pod0 exec0 vkTrue st0).st Kind.binding = 8 := by
  decide

/-- C8: when the provider search returns at least one result,
`provision_app` reuses the first result's identifier, issues no provider
create and no PATCH at all, and leaves every provider object in the
store — every field — unchanged (no drift correction). -/
theorem claim_C8 :
    ∀ fc base cfg af ivf cp m st, NoFail fc →
      searchBy st Kind.provider Fld.client_id cfg.slug ≠ [] →
      (provisionApp fc base cfg af ivf cp m st).2 =
        (searchBy st Kind.provider Fld.client_id cfg.slug).head?.map
          (fun o => o.pk) ∧
      payloadCount isProviderPayload
          (provisionApp fc base cfg af ivf cp m st).1.calls =
        payloadCount isProviderPayload st.calls ∧
      patchCount (provisionApp fc base cfg af ivf cp m st).1.calls =
        patchCount st.calls ∧
      (provisionApp fc base cfg af ivf cp m st).1.objs.filter
          (fun o => o.kind = Kind.provider) =
        st.objs.filter (fun o => o.kind = Kind.provider) := by
  intro fc base cfg af ivf cp m st hnf hne
  cases hs : searchBy st Kind.provider Fld.client_id cfg.slug with
  | nil => exact absurd hs hne
  | cons o t =>
      have hre : providerEnsure fc base cfg st =
          (getJson st (base ++ "/api/v3/providers/oauth2/?search=" ++ cfg.slug),
            some o.pk) := by
        unfold providerEnsure
        exact ensureObj_found fc _ _ _ hs
      simp only [provisionApp, hre, applicationEnsure]
      cases ha : searchBy st Kind.application Fld.slug cfg.slug with
      | cons a t2 =>
          simp only [searchBy_getJson, ha]
          refine ⟨by simp, ?_, ?_, rfl⟩
          · simp [payloadCount, List.filter_append, List.filter, isProviderPayload]
          · simp [patchCount, List.filter_append, List.filter]
      | nil =>
          simp only [searchBy_getJson, ha]
          rw [doPost_noFail hnf]
          simp only []
          refine ⟨by simp, ?_, ?_, ?_⟩
          · simp [payloadCount, List.filter_append, List.filter, isProviderPayload]
          · simp [patchCount, List.filter_append, List.filter]
          · simp [List.filter_append, List.filter]

/-- C8 witness at the fully provisioned state `st1`, where the provider
search for the production app finds the provider created by the first
run. -/
theorem claim_C8_witness :
    NoFail fcNone ∧
    searchBy st1 Kind.provider Fld.client_id appProd.slug ≠ [] ∧
    ((provisionApp fcNone "https://auth.bike-weather.com" appProd 2 3 1 [4, 5, 6] st1).2 =
        (searchBy st1 Kind.provider Fld.client_id appProd.slug).head?.map
          (fun o => o.pk) ∧
      payloadCount isProviderPayload
          (provisionApp fcNone "https://auth.bike-weather.com" appProd 2 3 1 [4, 5, 6] st1).1.calls =
        payloadCount isProviderPayload st1.calls ∧
      patchCount (provisionApp fcNone "https://auth.bike-weather.com" appProd 2 3 1 [4, 5, 6] st1).1.calls =
        patchCount st1.calls ∧
      (provisionApp fcNone "https://auth.bike-weather.com" appProd 2 3 1 [4, 5, 6] st1).1.objs.filter
          (fun o => o.kind = Kind.provider) =
        st1.objs.filter (fun o => o.kind = Kind.provider)) :=
  ⟨fun c => rfl, by decide,
    claim_C8 fcNone "https://auth.bike-weather.com" appProd 2 3 1 [4, 5, 6] st1
      (fun c => rfl) (by decide)⟩

/-- C7: whenever the token extracted from the `kubectl exec` output has
fewer than 10 characters (in particular when it is empty), the process
exits with code 1 and the state — including the request log — is
untouched: no identity-provider API call is attempted. -/
theorem claim_C7 :
    ∀ fc args pod exec vk st, (tokenOf exec).length < 10 →
      (runMain fc args pod exec vk st).exit = 1 ∧
      (runMain fc args pod exec vk st).st = st := by
  intro fc args pod exec vk st h
  have hb : tokenBad exec = true := by
    unfold tokenBad
    simp [h]
  unfold runMain
  by_cases hp : podNameOf pod = "" <;> simp [hp, hb]

/-- C7 witness at a concrete short token output. -/
theorem claim_C7_witness :
    (tokenOf "oops").length < 10 ∧
    ((runMain fcNone args0 pod0 "oops" vkTrue st0).exit = 1 ∧
      (runMain fcNone args0 pod0 "oops" vkTrue st0).st = st0) :=
  ⟨by decide, claim_C7 fcNone args0 pod0 "oops" vkTrue st0 (by decide)⟩

/-- C10: the base URL is stripped of all trailing slash characters
before any request is built (`runMain` behaves identically on a base URL
and on its stripped form), so two runs whose base URLs differ only by
trailing slashes produce identical results — in particular identical
request URLs in the log. -/
theorem claim_C10 :
    (∀ fc args pod exec vk st,
        runMain fc args pod exec vk st =
          runMain fc { args with base_url := rstripSlashes args.base_url }
            pod exec vk st)
  ∧ (∀ fc base skip k₁ k₂ pod exec vk st,
        runMain fc { base_url := base ++ slashes k₁, skip_keyvault := skip }
            pod exec vk st =
          runMain fc { base_url := base ++ slashes k₂, skip_keyvault := skip }
            pod exec vk st) := by
  constructor
  · intro fc args pod exec vk st
    unfold runMain
    rw [rstripSlashes_idem]
  · intro fc base skip k₁ k₂ pod exec vk st
    have h : rstripSlashes (base ++ slashes k₁) = rstripSlashes (base ++ slashes k₂) := by
      rw [rstripSlashes_append_slashes, rstripSlashes_append_slashes]
    unfold runMain
    simp only []
    rw [h]

/-- C6: the process exits 1 exactly on the four fatal prerequisite
failures (missing server pod, unusable token, missing signing
certificate, missing required authorization/invalidation flows) and
exits 0 otherwise — for every failure oracle `fc` (per-application
creation failures never abort) and every vault outcome `vk` (vault
failures are warnings). -/
theorem claim_C6 :
    ∀ fc args pod exec vk st,
      ((runMain fc args pod exec vk st).exit = 1 ↔ fatalPrereq pod exec st) ∧
      ((runMain fc args pod exec vk st).exit = 0 ↔ ¬ fatalPrereq pod exec st) := by
  intro fc args pod exec vk st
  by_cases h1 : podNameOf pod = ""
  · unfold runMain
    simp [h1, fatalPrereq]
  · by_cases h2 : tokenBad exec = true
    · unfold runMain
      simp [h1, h2, fatalPrereq]
    · unfold runMain runAfterToken
      cases h3 : searchBy st Kind.cert Fld.name certName with
      | nil => simp [h1, h2, h3, fatalPrereq]
      | cons c t =>
          unfold runAfterCert
          cases h4 : findFlowPk st authFlowSlug with
          | none => simp [h1, h2, h3, h4, fatalPrereq]
          | some af =>
              cases h5 : findFlowPk st invFlowSlug with
              | none => simp [h1, h2, h3, h4, h5, fatalPrereq]
              | some ivf => simp [h1, h2, h3, h4, h5, fatalPrereq, runReconcile]

/-- C4: in one `setup_recovery_flow` run starting with an empty request
log, for each of the four stage kinds (identification, email,
password-prompt, user-write), if the stage with the derived
`{flow_slug}-{kind}` name already exists in the store, no create request
carrying that stage kind's payload is issued; exactly one PATCH request
is issued in the whole run, and every PATCH request carries the
email-stage patch payload (the email stage is the only stage kind that
is patched, unconditionally). -/
theorem claim_C4 (fc : Call → Bool) (base : String) (cfg : AppConfig)
    (st : St) (hnf : NoFail fc) (h0 : st.calls = []) :
    (searchBy st Kind.identStage Fld.name
        (cfg.recovery_flow_slug ++ "-identification") ≠ [] →
      payloadCount isIdentStagePayload
        (setupRecoveryFlow fc base cfg st).calls = 0) ∧
    (searchBy st Kind.emailStage Fld.name
        (cfg.recovery_flow_slug ++ "-email") ≠ [] →
      payloadCount isEmailStagePayload
        (setupRecoveryFlow fc base cfg st).calls = 0) ∧
    (searchBy st Kind.promptStage Fld.name
        (cfg.recovery_flow_slug ++ "-password") ≠ [] →
      payloadCount isPromptStagePayload
        (setupRecoveryFlow fc base cfg st).calls = 0) ∧
    (searchBy st Kind.userWriteStage Fld.name
        (cfg.recovery_flow_slug ++ "-user-write") ≠ [] →
      payloadCount isUserWriteStagePayload
        (setupRecoveryFlow fc base cfg st).calls = 0) ∧
    patchCount (setupRecoveryFlow fc base cfg st).calls = 1 ∧
    (∀ c ∈ (setupRecoveryFlow fc base cfg st).calls,
      c.method = "PATCH" → isEmailPatchPayload c.payload = true) := by
  obtain ⟨fp, f0, hr2, hfh, hfpk⟩ :=
    @recoveryFlowEnsure_establish fc st base cfg hnf
  have hstep0 : StepTo [cfg.recovery_flow_slug ++ "-email"] st
      (recoveryFlowEnsure fc base cfg st).1 :=
    recoveryFlowEnsure_stepTo _ fc base cfg st
  simp only [setupRecoveryFlow, hr2]
  simp only [recoveryCore]
  set rs := cfg.recovery_flow_slug with hrs
  set ns := [rs ++ "-email"] with hns
  set st_b := getJson (recoveryFlowEnsure fc base cfg st).1
    (base ++ "/api/v3/flows/bindings/?target=" ++ toString fp ++ "&ordering=order")
    with hstb
  set rI := identStep fc base rs st_b with hrI
  set rE := emailStep fc base rs cfg.email_template rI.1 with hrE
  set stP := emailPatch fc base cfg.email_template rE.2 rE.1 with hstP
  set rP := passwordStep fc base rs stP with hrP
  set rW := userWriteStep fc base rs rP.1 with hrW
  -- the state chain, for transporting the lookup hypotheses forward
  have hS_b : StepTo ns st st_b :=
    stepTo_trans hstep0 (stepTo_getJson ns _ _)
  have hS_I : StepTo ns st_b rI.1 := identStep_stepTo ns fc base rs st_b
  have hS_E : StepTo ns rI.1 rE.1 :=
    emailStep_stepTo ns fc base rs cfg.email_template rI.1
  obtain ⟨ep, e1, he2, heh, hepk⟩ :=
    @emailStep_establish fc rI.1 base rs cfg.email_template hnf
  obtain ⟨eo, heo_mem, heo_pk, heo_kind, heo_name⟩ := emailStep_target he2
  have hPok : PatchOk rE.1 ns ep :=
    Or.inl ⟨eo, heo_mem, heo_pk, heo_kind,
      by rw [heo_name, hns]; exact List.mem_singleton.2 rfl⟩
  have hstP_eq : stP = emailPatch fc base cfg.email_template (some ep) rE.1 := by
    rw [hstP, he2]
  have hS_P : StepTo ns rE.1 stP := by
    rw [hstP_eq]
    exact emailPatch_stepTo ns fc base cfg.email_template hPok
  have hS_Pw : StepTo ns stP rP.1 := passwordStep_stepTo ns fc base rs stP
  -- the request-log decomposition
  obtain ⟨Δf, hf1, hf2, hf3, hf4⟩ := recoveryFlowEnsure_callsFacts fc base cfg st
  have hstb_calls : st_b.calls = (recoveryFlowEnsure fc base cfg st).1.calls ++
      [⟨"GET", base ++ "/api/v3/flows/bindings/?target=" ++ toString fp ++
        "&ordering=order", Payload.empty⟩] := by
    rw [hstb]
    exact getJson_calls _ _
  obtain ⟨ΔI, hI1, hI2, hI3, hI4⟩ := identStep_callsFacts fc base rs st_b
  rw [← hrI] at hI1
  obtain ⟨ΔE, hE1, hE2, hE3, hE4⟩ :=
    emailStep_callsFacts fc base rs cfg.email_template rI.1
  rw [← hrE] at hE1
  have hstPc : stP.calls = rE.1.calls ++
      [⟨"PATCH", base ++ "/api/v3/stages/email/" ++ toString ep ++ "/",
        Payload.emailPatch cfg.email_template emailSubject⟩] := by
    rw [hstP_eq]
    exact emailPatch_calls_some fc base cfg.email_template ep rE.1
  obtain ⟨ΔP, hP1, hP2, hP3, hP4⟩ := passwordStep_callsFacts fc base rs stP
  rw [← hrP] at hP1
  obtain ⟨ΔW, hW1, hW2, hW3, hW4⟩ := userWriteStep_callsFacts fc base rs rP.1
  rw [← hrW] at hW1
  obtain ⟨ΔB, hB1, hB2⟩ := bindStages_callsFacts fc base fp (boundSet st_b fp)
    [(rI.2, 0), (rE.2, 10), (rP.2, 20), (rW.2, 30)] rW.1
  refine ⟨?_, ?_, ?_, ?_, ?_, ?_⟩
  · -- identification stage pre-exists: no identification-stage create
    intro hne
    have hne_b := stepTo_search_ne hS_b hne
    have hzf : ∀ x ∈ Δf, isIdentStagePayload x.payload = false := by
      intro x hx
      rcases hf3 x hx with h | h <;> rw [h] <;> rfl
    have hzE : ∀ x ∈ ΔE, isIdentStagePayload x.payload = false := by
      intro x hx
      rcases hE3 x hx with h | h <;> rw [h] <;> rfl
    have hzP : ∀ x ∈ ΔP, isIdentStagePayload x.payload = false := by
      intro x hx
      rcases hP3 x hx with h | h | ⟨flds, h⟩
      · rw [h]; rfl
      · obtain ⟨a, b, c, h⟩ := isPromptFieldPayload_spec h
        rw [h]; rfl
      · rw [h]; rfl
    have hzW : ∀ x ∈ ΔW, isIdentStagePayload x.payload = false := by
      intro x hx
      rcases hW3 x hx with h | h <;> rw [h] <;> rfl
    have hzB : ∀ x ∈ ΔB, isIdentStagePayload x.payload = false := by
      intro x hx
      obtain ⟨a, b, c, h⟩ := isBindingPayload_spec (hB2 x hx).2
      rw [h]; rfl
    rw [hB1, hW1, hP1, hstPc, hE1, hI1, hstb_calls, hf1, h0, hI2 hne_b]
    simp only [payloadCount_append, List.nil_append]
    rw [payloadCount_eq_zero hzf, payloadCount_eq_zero hzE,
      payloadCount_eq_zero hzP, payloadCount_eq_zero hzW,
      payloadCount_eq_zero hzB]
    rfl
  · -- email stage pre-exists: no email-stage create
    intro hne
    have hne_I := stepTo_search_ne (stepTo_trans hS_b hS_I) hne
    have hzf : ∀ x ∈ Δf, isEmailStagePayload x.payload = false := by
      intro x hx
      rcases hf3 x hx with h | h <;> rw [h] <;> rfl
    have hzI : ∀ x ∈ ΔI, isEmailStagePayload x.payload = false := by
      intro x hx
      rcases hI3 x hx with h | h <;> rw [h] <;> rfl
    have hzP : ∀ x ∈ ΔP, isEmailStagePayload x.payload = false := by
      intro x hx
      rcases hP3 x hx with h | h | ⟨flds, h⟩
      · rw [h]; rfl
      · obtain ⟨a, b, c, h⟩ := isPromptFieldPayload_spec h
        rw [h]; rfl
      · rw [h]; rfl
    have hzW : ∀ x ∈ ΔW, isEmailStagePayload x.payload = false := by
      intro x hx
      rcases hW3 x hx with h | h <;> rw [h] <;> rfl
    have hzB : ∀ x ∈ ΔB, isEmailStagePayload x.payload = false := by
      intro x hx
      obtain ⟨a, b, c, h⟩ := isBindingPayload_spec (hB2 x hx).2
      rw [h]; rfl
    rw [hB1, hW1, hP1, hstPc, hE1, hI1, hstb_calls, hf1, h0, hE2 hne_I]
    simp only [payloadCount_append, List.nil_append]
    rw [payloadCount_eq_zero hzf, payloadCount_eq_zero hzI,
      payloadCount_eq_zero hzP, payloadCount_eq_zero hzW,
      payloadCount_eq_zero hzB]
    rfl
  · -- prompt stage pre-exists: no prompt-stage create
    intro hne
    have hne_P := stepTo_search_ne
      (stepTo_trans (stepTo_trans (stepTo_trans hS_b hS_I) hS_E) hS_P) hne
    have hzf : ∀ x ∈ Δf, isPromptStagePayload x.payload = false := by
      intro x hx
      rcases hf3 x hx with h | h <;> rw [h] <;> rfl
    have hzI : ∀ x ∈ ΔI, isPromptStagePayload x.payload = false := by
      intro x hx
      rcases hI3 x hx with h | h <;> rw [h] <;> rfl
    have hzE : ∀ x ∈ ΔE, isPromptStagePayload x.payload = false := by
      intro x hx
      rcases hE3 x hx with h | h <;> rw [h] <;> rfl
    have hzW : ∀ x ∈ ΔW, isPromptStagePayload x.payload = false := by
      intro x hx
      rcases hW3 x hx with h | h <;> rw [h] <;> rfl
    have hzB : ∀ x ∈ ΔB, isPromptStagePayload x.payload = false := by
      intro x hx
      obtain ⟨a, b, c, h⟩ := isBindingPayload_spec (hB2 x hx).2
      rw [h]; rfl
    rw [hB1, hW1, hP1, hstPc, hE1, hI1, hstb_calls, hf1, h0, hP2 hne_P]
    simp only [payloadCount_append, List.nil_append]
    rw [payloadCount_eq_zero hzf, payloadCount_eq_zero hzI,
      payloadCount_eq_zero hzE, payloadCount_eq_zero hzW,
      payloadCount_eq_zero hzB]
    rfl
  · -- user-write stage pre-exists: no user-write-stage create
    intro hne
    have hne_W := stepTo_search_ne
      (stepTo_trans (stepTo_trans (stepTo_trans (stepTo_trans hS_b hS_I) hS_E)
        hS_P) hS_Pw) hne
    have hzf : ∀ x ∈ Δf, isUserWriteStagePayload x.payload = false := by
      intro x hx
      rcases hf3 x hx with h | h <;> rw [h] <;> rfl
    have hzI : ∀ x ∈ ΔI, isUserWriteStagePayload x.payload = false := by
      intro x hx
      rcases hI3 x hx with h | h <;> rw [h] <;> rfl
    have hzE : ∀ x ∈ ΔE, isUserWriteStagePayload x.payload = false := by
      intro x hx
      rcases hE3 x hx with h | h <;> rw [h] <;> rfl
    have hzP : ∀ x ∈ ΔP, isUserWriteStagePayload x.payload = false := by
      intro x hx
      rcases hP3 x hx with h | h | ⟨flds, h⟩
      · rw [h]; rfl
      · obtain ⟨a, b, c, h⟩ := isPromptFieldPayload_spec h
        rw [h]; rfl
      · rw [h]; rfl
    have hzB : ∀ x ∈ ΔB, isUserWriteStagePayload x.payload = false := by
      intro x hx
      obtain ⟨a, b, c, h⟩ := isBindingPayload_spec (hB2 x hx).2
      rw [h]; rfl
    rw [hB1, hW1, hP1, hstPc, hE1, hI1, hstb_calls, hf1, h0, hW2 hne_W]
    simp only [payloadCount_append, List.nil_append]
    rw [payloadCount_eq_zero hzf, payloadCount_eq_zero hzI,
      payloadCount_eq_zero hzE, payloadCount_eq_zero hzP,
      payloadCount_eq_zero hzB]
    rfl
  · -- exactly one PATCH in the whole run: the email-stage patch
    have hmf : ∀ x ∈ Δf, x.method ≠ "PATCH" := by
      intro x hx
      rcases hf4 x hx with h | h <;> rw [h] <;> decide
    have hmI : ∀ x ∈ ΔI, x.method ≠ "PATCH" := by
      intro x hx
      rcases hI4 x hx with h | h <;> rw [h] <;> decide
    have hmE : ∀ x ∈ ΔE, x.method ≠ "PATCH" := by
      intro x hx
      rcases hE4 x hx with h | h <;> rw [h] <;> decide
    have hmP : ∀ x ∈ ΔP, x.method ≠ "PATCH" := by
      intro x hx
      rcases hP4 x hx with h | h <;> rw [h] <;> decide
    have hmW : ∀ x ∈ ΔW, x.method ≠ "PATCH" := by
      intro x hx
      rcases hW4 x hx with h | h <;> rw [h] <;> decide
    have hmB : ∀ x ∈ ΔB, x.method ≠ "PATCH" := by
      intro x hx
      rw [(hB2 x hx).1]
      decide
    rw [hB1, hW1, hP1, hstPc, hE1, hI1, hstb_calls, hf1, h0]
    simp only [patchCount_append, List.nil_append]
    rw [patchCount_eq_zero hmf, patchCount_eq_zero hmI,
      patchCount_eq_zero hmE, patchCount_eq_zero hmP,
      patchCount_eq_zero hmW, patchCount_eq_zero hmB]
    rfl
  · -- every PATCH carries the email-stage patch payload
    intro c hc hm
    rw [hB1, hW1, hP1, hstPc, hE1, hI1, hstb_calls, hf1, h0] at hc
    simp only [List.nil_append, List.mem_append, List.mem_singleton] at hc
    rcases hc with ((((((hc | rfl) | hc) | hc) | rfl) | hc) | hc) | hc
    · rcases hf4 c hc with h | h <;> rw [h] at hm <;> exact absurd hm (by decide)
    · exact absurd (show ("GET" : String) = "PATCH" from hm) (by decide)
    · rcases hI4 c hc with h | h <;> rw [h] at hm <;> exact absurd hm (by decide)
    · rcases hE4 c hc with h | h <;> rw [h] at hm <;> exact absurd hm (by decide)
    · rfl
    · rcases hP4 c hc with h | h <;> rw [h] at hm <;> exact absurd hm (by decide)
    · rcases hW4 c hc with h | h <;> rw [h] at hm <;> exact absurd hm (by decide)
    · rw [(hB2 c hc).1] at hm
      exact absurd hm (by decide)

/-- C4 witness: against the fully provisioned store of the scenario run,
with a compliant server, the production app's second `setup_recovery_flow`
issues no identification-stage create and exactly one PATCH. -/
theorem claim_C4_witness :
    payloadCount isIdentStagePayload
      (setupRecoveryFlow fcNone "https://authentik.local" appProd st1).calls = 0 ∧
    patchCount
      (setupRecoveryFlow fcNone "https://authentik.local" appProd st1).calls = 1 :=
  ⟨(claim_C4 fcNone "https://authentik.local" appProd st1
      (fun c => rfl) rfl).1 (by decide),
   (claim_C4 fcNone "https://authentik.local" appProd st1
      (fun c => rfl) rfl).2.2.2.2.1⟩

/-- C5: in the binding step, every request the loop appends to the log is
a binding create for a stage identifier that was present (non-empty) in
the stage list and not already in the pre-fetched binding set of the
flow, at the order paired with it; and with a compliant server the
recovery-flow procedure invokes exactly that loop, on the binding set
fetched once at the start, with the four stage pks at the fixed orders
0, 10, 20, 30 — where each pk is pinned to its stage kind: it is the pk
at the head of the lookup, in the store at binding time, for the derived
name of the identification, email, password-prompt and user-write stage
respectively. -/
theorem claim_C5 (fc : Call → Bool) (base : String) (fp : Nat) :
    (∀ (bound : List Nat) (stages : List (Option Nat × Nat)) (st : St),
      ∃ Δ, (bindStages fc base fp bound stages st).calls = st.calls ++ Δ ∧
        ∀ c ∈ Δ, ∃ p ord, (some p, ord) ∈ stages ∧ p ∉ bound ∧
          c = ⟨"POST", base ++ "/api/v3/flows/bindings/",
            Payload.binding fp p ord⟩) ∧
    (∀ (cfg : AppConfig) (st : St), NoFail fc →
      ∃ (pI pE pP pW : Option Nat) (w : St),
        recoveryCore fc base cfg st fp =
          bindStages fc base fp
            (boundSet (getJson st (base ++ "/api/v3/flows/bindings/?target=" ++
              toString fp ++ "&ordering=order")) fp)
            [(pI, 0), (pE, 10), (pP, 20), (pW, 30)] w ∧
        (∃ o, (searchBy w Kind.identStage Fld.name
          (cfg.recovery_flow_slug ++ "-identification")).head? = some o ∧
          pI = some o.pk) ∧
        (∃ o, (searchBy w Kind.emailStage Fld.name
          (cfg.recovery_flow_slug ++ "-email")).head? = some o ∧
          pE = some o.pk) ∧
        (∃ o, (searchBy w Kind.promptStage Fld.name
          (cfg.recovery_flow_slug ++ "-password")).head? = some o ∧
          pP = some o.pk) ∧
        (∃ o, (searchBy w Kind.userWriteStage Fld.name
          (cfg.recovery_flow_slug ++ "-user-write")).head? = some o ∧
          pW = some o.pk)) := by
  constructor
  · intro bound stages st
    rw [bindStages_calls]
    refine ⟨_, rfl, ?_⟩
    intro c hc
    rw [List.mem_filterMap] at hc
    obtain ⟨y, hymem, hy⟩ := hc
    cases h1 : y.1 with
    | none => rw [h1] at hy; cases hy
    | some p =>
        rw [h1] at hy
        by_cases h2 : p ∈ bound
        · simp only [h2, if_true] at hy
          cases hy
        · simp only [h2, if_false] at hy
          injection hy with hy
          refine ⟨p, y.2, ?_, h2, hy.symm⟩
          rw [← h1]
          simp only [Prod.mk.eta]
          exact hymem
  · intro cfg st hnf
    simp only [recoveryCore]
    set rs := cfg.recovery_flow_slug with hrs
    set ns := [rs ++ "-email"] with hns
    set st_b := getJson st (base ++ "/api/v3/flows/bindings/?target=" ++
      toString fp ++ "&ordering=order") with hstb
    set rI := identStep fc base rs st_b with hrI
    set rE := emailStep fc base rs cfg.email_template rI.1 with hrE
    set stP := emailPatch fc base cfg.email_template rE.2 rE.1 with hstP
    set rP := passwordStep fc base rs stP with hrP
    set rW := userWriteStep fc base rs rP.1 with hrW
    obtain ⟨ip, i1, hi2, hih, hipk⟩ := @identStep_establish fc st_b base rs hnf
    have hS_E : StepTo ns rI.1 rE.1 :=
      emailStep_stepTo ns fc base rs cfg.email_template rI.1
    obtain ⟨ep, e1, he2, heh, hepk⟩ :=
      @emailStep_establish fc rI.1 base rs cfg.email_template hnf
    obtain ⟨eo, heo_mem, heo_pk, heo_kind, heo_name⟩ := emailStep_target he2
    have hPok : PatchOk rE.1 ns ep :=
      Or.inl ⟨eo, heo_mem, heo_pk, heo_kind,
        by rw [heo_name, hns]; exact List.mem_singleton.2 rfl⟩
    have hstP_eq : stP = emailPatch fc base cfg.email_template (some ep) rE.1 := by
      rw [hstP, he2]
    have hS_P : StepTo ns rE.1 stP := by
      rw [hstP_eq]
      exact emailPatch_stepTo ns fc base cfg.email_template hPok
    have hS_Pw : StepTo ns stP rP.1 := passwordStep_stepTo ns fc base rs stP
    obtain ⟨pp, p1, hp2, hph, hppk⟩ := @passwordStep_establish fc stP rs hnf base
    obtain ⟨wp, w1, hw2, hwh, hwpk⟩ := @userWriteStep_establish fc rP.1 base rs hnf
    have hS_W : StepTo ns rP.1 rW.1 := userWriteStep_stepTo ns fc base rs rP.1
    obtain ⟨i2, hih2, hipk2⟩ := stepTo_search_head hS_E hih
    obtain ⟨i3, hih3, hipk3⟩ := stepTo_search_head hS_P hih2
    obtain ⟨i4, hih4, hipk4⟩ := stepTo_search_head hS_Pw hih3
    obtain ⟨i5, hih5, hipk5⟩ := stepTo_search_head hS_W hih4
    obtain ⟨e2, heh2, hepk2⟩ := stepTo_search_head hS_P heh
    obtain ⟨e3, heh3, hepk3⟩ := stepTo_search_head hS_Pw heh2
    obtain ⟨e4, heh4, hepk4⟩ := stepTo_search_head hS_W heh3
    obtain ⟨p2, hph2, hppk2⟩ := stepTo_search_head hS_W hph
    refine ⟨rI.2, rE.2, rP.2, rW.2, rW.1, rfl,
      ⟨i5, hih5, ?_⟩, ⟨e4, heh4, ?_⟩, ⟨p2, hph2, ?_⟩, ⟨w1, hwh, ?_⟩⟩
    · rw [hi2, hipk5, hipk4, hipk3, hipk2, hipk]
    · rw [he2, hepk4, hepk3, hepk2, hepk]
    · rw [hp2, hppk2, hppk]
    · rw [hw2, hwpk]

/-- C9: when the password-prompt stage is absent at lookup, the stage
create request is issued for every failure oracle, carrying exactly the
non-empty subset of the two prompt-field identifiers (possibly the empty
list); and the flow setup is never aborted there: the user-write lookup
that follows the password block is issued in the recovery-flow procedure
for every oracle and every store. -/
theorem claim_C9 (fc : Call → Bool) (base fs : String) (st : St)
    (habs : searchBy st Kind.promptStage Fld.name (fs ++ "-password") = []) :
    (∃ p1 p2 : Option Nat,
      (⟨"POST", base ++ "/api/v3/stages/prompt/stages/",
        Payload.promptStage (fs ++ "-password")
          ([p1, p2].filterMap id)⟩ : Call) ∈
        (passwordStep fc base fs st).1.calls) ∧
    (∀ (cfg : AppConfig) (st2 : St) (fp : Nat),
      (⟨"GET", base ++ "/api/v3/stages/user_write/?search=" ++
        (cfg.recovery_flow_slug ++ "-user-write"), Payload.empty⟩ : Call) ∈
        (recoveryCore fc base cfg st2 fp).calls) := by
  constructor
  · rw [passwordStep_nil base habs]
    obtain ⟨mid, p1, p2, hcalls, hmid⟩ := passwordCreate_calls fc base fs
      (getJson st (base ++ "/api/v3/stages/prompt/stages/?search=" ++
        (fs ++ "-password")))
    refine ⟨p1, p2, ?_⟩
    rw [hcalls]
    refine List.mem_append.2 (Or.inr ?_)
    refine List.mem_append.2 (Or.inr ?_)
    exact List.mem_singleton.2 rfl
  · intro cfg st2 fp
    exact recoveryCore_userWrite_get_mem fc base cfg st2 fp

/-- C9 witness: on the prerequisite-only store with the oracle that
fails every prompt-field create, the password block still issues the
stage create, and the concrete request it issues carries the empty field
list. -/
theorem claim_C9_witness :
    ((∃ p1 p2 : Option Nat,
      (⟨"POST", "https://ak" ++ "/api/v3/stages/prompt/stages/",
        Payload.promptStage (appProd.recovery_flow_slug ++ "-password")
          ([p1, p2].filterMap id)⟩ : Call) ∈
        (passwordStep fcPromptFieldFail "https://ak"
          appProd.recovery_flow_slug st0).1.calls) ∧
    (∀ (cfg : AppConfig) (st2 : St) (fp : Nat),
      (⟨"GET", "https://ak" ++ "/api/v3/stages/user_write/?search=" ++
        (cfg.recovery_flow_slug ++ "-user-write"), Payload.empty⟩ : Call) ∈
        (recoveryCore fcPromptFieldFail "https://ak" cfg st2 fp).calls)) ∧
    (⟨"POST", "https://ak" ++ "/api/v3/stages/prompt/stages/",
      Payload.promptStage (appProd.recovery_flow_slug ++ "-password")
        ([] : List Nat)⟩ : Call) ∈
      (passwordStep fcPromptFieldFail "https://ak"
        appProd.recovery_flow_slug st0).1.calls :=
  ⟨claim_C9 fcPromptFieldFail "https://ak" appProd.recovery_flow_slug st0
      (by decide),
   by decide⟩

/-- C5 witness: the binding-loop characterization applied to a concrete
flow, binding set and stage list, and the recovery-procedure
decomposition applied to the production app on the prerequisite-only
store with the compliant server. -/
theorem claim_C5_witness :
    (∃ Δ, (bindStages fcNone "https://ak" 2 [5]
        [(some 5, 0), (none, 10), (some 7, 20)] st0).calls =
      st0.calls ++ Δ ∧
      ∀ c ∈ Δ, ∃ p ord,
        (some p, ord) ∈ [(some 5, 0), (none, 10), (some 7, 20)] ∧
        p ∉ [5] ∧
        c = ⟨"POST", "https://ak" ++ "/api/v3/flows/bindings/",
          Payload.binding 2 p ord⟩) ∧
    (∃ (pI pE pP pW : Option Nat) (w : St),
      recoveryCore fcNone "https://ak" appProd st0 2 =
        bindStages fcNone "https://ak" 2
          (boundSet (getJson st0 ("https://ak" ++
            "/api/v3/flows/bindings/?target=" ++ toString 2 ++
            "&ordering=order")) 2)
          [(pI, 0), (pE, 10), (pP, 20), (pW, 30)] w ∧
      (∃ o, (searchBy w Kind.identStage Fld.name
        (appProd.recovery_flow_slug ++ "-identification")).head? = some o ∧
        pI = some o.pk) ∧
      (∃ o, (searchBy w Kind.emailStage Fld.name
        (appProd.recovery_flow_slug ++ "-email")).head? = some o ∧
        pE = some o.pk) ∧
      (∃ o, (searchBy w Kind.promptStage Fld.name
        (appProd.recovery_flow_slug ++ "-password")).head? = some o ∧
        pP = some o.pk) ∧
      (∃ o, (searchBy w Kind.userWriteStage Fld.name
        (appProd.recovery_flow_slug ++ "-user-write")).head? = some o ∧
        pW = some o.pk)) :=
  ⟨(claim_C5 fcNone "https://ak" 2).1 [5]
      [(some 5, 0), (none, 10), (some 7, 20)] st0,
   (claim_C5 fcNone "https://ak" 2).2 appProd st0 (fun c => rfl)⟩

end Homelab
